import Mathlib

set_option maxRecDepth 100000
set_option maxHeartbeats 2000000

/-!
Shallow embedding of the core of `cdeimert/fluxreader`
(`src/XGEN_flux_file_parsing.py` together with the cell registry of
`src/cells.py`), and proofs about the claims on its specification.

Modelling conventions:
* Python floats are modelled by `PyFloat`: an exact rational plus the IEEE
  special values `inf`, `-inf` and `nan`.  Rational arithmetic is exact where
  the source's double arithmetic is exact; every concrete input used below
  only involves binary-exact decimal values, where the two agree.
* Python `None` is modelled by `Option.none`; Python truthiness of optional
  floats/ints (`if x:`) is modelled explicitly (`None`, `0.0` and `0` falsy).
* Exceptions are modelled with `Except String`.
* The file system is an association list from file name to file content;
  the folder argument of the store functions is dropped (a single folder).
-/

namespace FluxReader

/-- Decidable equality of `Except` results (needed to evaluate the model
on concrete inputs). -/
instance exceptDecEq {ε α : Type} [DecidableEq ε] [DecidableEq α] :
    DecidableEq (Except ε α)
  | .ok a, .ok b =>
    if h : a = b then .isTrue (by rw [h])
    else .isFalse (fun hh => h (Except.ok.inj hh))
  | .error a, .error b =>
    if h : a = b then .isTrue (by rw [h])
    else .isFalse (fun hh => h (Except.error.inj hh))
  | .ok _, .error _ => .isFalse (fun hh => Except.noConfusion hh)
  | .error _, .ok _ => .isFalse (fun hh => Except.noConfusion hh)

/-- `10 ^ n` as a rational (kept out of the `Monoid.npow` instance path
so that concrete computations reduce). -/
def pow10 (n : ℕ) : ℚ := ((10 ^ n : ℕ) : ℚ)

/-- `q * 10 ^ e` for an integer exponent. -/
def mulPow10 (q : ℚ) : ℤ → ℚ
  | .ofNat n => q * pow10 n
  | .negSucc n => q / pow10 (n + 1)

/-- Binary maximum on ℚ (Python `max` reduced to two arguments). -/
def qmax (a b : ℚ) : ℚ := if a < b then b else a

/-- Binary minimum on ℚ. -/
def qmin (a b : ℚ) : ℚ := if b < a then b else a

/-- Absolute value on ℚ (kept out of the lattice instance path). -/
def qabs (q : ℚ) : ℚ := if q < 0 then -q else q

/-- A Python `float` value: a finite (exact) rational, `inf`, `-inf`
or `nan`. -/
inductive PyFloat where
  | fin (q : ℚ)
  | pinf
  | ninf
  | nan
deriving DecidableEq

/-- Truthiness of a Python float: `0.0` is falsy; `inf` and `nan` are
truthy. -/
def PyFloat.truthy : PyFloat → Bool
  | .fin q => q != 0
  | _ => true

/-- Truthiness of an optional Python float (`None` is falsy). -/
def optFloatTruthy : Option PyFloat → Bool
  | none => false
  | some v => v.truthy

/-- Division of two exact rationals with IEEE zero-denominator semantics
(as performed by numpy on `float64` values: `x/0.0` is `±inf` for `x ≠ 0`
and `nan` for `x = 0`). -/
def pyDivQ (a b : ℚ) : PyFloat :=
  if b = 0 then
    if 0 < a then .pinf else if a < 0 then .ninf else .nan
  else .fin (a / b)

/-- Division of an exact rational by a Python float. -/
def qDivPF (a : ℚ) : PyFloat → PyFloat
  | .fin b => pyDivQ a b
  | .pinf => .fin 0
  | .ninf => .fin 0
  | .nan => .nan

/-- IEEE multiplication on `PyFloat` (signs of infinities propagated;
`inf * 0` is `nan`). -/
def pyMul : PyFloat → PyFloat → PyFloat
  | .nan, _ => .nan
  | _, .nan => .nan
  | .fin a, .fin b => .fin (a * b)
  | .fin a, .pinf => if 0 < a then .pinf else if a < 0 then .ninf else .nan
  | .fin a, .ninf => if 0 < a then .ninf else if a < 0 then .pinf else .nan
  | .pinf, .fin b => if 0 < b then .pinf else if b < 0 then .ninf else .nan
  | .ninf, .fin b => if 0 < b then .ninf else if b < 0 then .pinf else .nan
  | .pinf, .pinf => .pinf
  | .pinf, .ninf => .ninf
  | .ninf, .pinf => .ninf
  | .ninf, .ninf => .pinf

/-- IEEE addition on `PyFloat` (`inf + -inf` is `nan`). -/
def pyAdd : PyFloat → PyFloat → PyFloat
  | .nan, _ => .nan
  | _, .nan => .nan
  | .fin a, .fin b => .fin (a + b)
  | .fin _, .pinf => .pinf
  | .fin _, .ninf => .ninf
  | .pinf, .fin _ => .pinf
  | .ninf, .fin _ => .ninf
  | .pinf, .pinf => .pinf
  | .ninf, .ninf => .ninf
  | .pinf, .ninf => .nan
  | .ninf, .pinf => .nan

/-- Exact square root of a rational: the true square root on perfect
squares (in particular `ratSqrt 0 = 0`, the only case any theorem below
depends on); `0` elsewhere, where the source's `np.sqrt` would produce an
irrational double that has no exact rational counterpart. -/
def ratSqrt (q : ℚ) : ℚ :=
  if q < 0 then 0
  else
    let n := q.num.toNat.sqrt
    let d := q.den.sqrt
    if n * n = q.num.toNat ∧ d * d = q.den then (n : ℚ) / (d : ℚ) else 0

/-- `np.sqrt` on a Python float (`sqrt` of a negative is `nan`, of `inf`
is `inf`). -/
def npSqrtF : PyFloat → PyFloat
  | .fin q => if q < 0 then .nan else .fin (ratSqrt q)
  | .pinf => .pinf
  | .ninf => .nan
  | .nan => .nan

/-- `np.average` of a list of exact values: sum divided by length. -/
def npAverage (l : List ℚ) : ℚ :=
  l.sum / (l.length : ℚ)

/-- `np.std` of a list of exact values: population standard deviation
(square root of the mean squared deviation, `ddof = 0`). -/
def npStd (l : List ℚ) : ℚ :=
  let m := npAverage l
  ratSqrt (npAverage (l.map (fun x => (x - m) * (x - m))))

/-! ### Python dictionaries as insertion-ordered association lists -/

/-- Lookup in an insertion-ordered association list (Python `dict`
access). -/
def dlookup {K V : Type} [DecidableEq K] (k : K) : List (K × V) → Option V
  | [] => none
  | (k', v) :: rest => if k = k' then some v else dlookup k rest

/-- Python `d[k] = v`: overwrite in place if the key is present (keeping
its position), otherwise append at the end. -/
def dictSet {K V : Type} [DecidableEq K] (l : List (K × V)) (k : K) (v : V) :
    List (K × V) :=
  match dlookup k l with
  | none => l ++ [(k, v)]
  | some _ => l.map (fun p => if p.1 = k then (k, v) else p)

/-- Python `if k not in d: d[k] = []` followed by `d[k].append(v)`. -/
def dictAppend {K V : Type} [DecidableEq K] (l : List (K × List V)) (k : K)
    (v : V) : List (K × List V) :=
  dictSet l k ((dlookup k l).getD [] ++ [v])

/-! ### String utilities (Python `str` methods on the char-list view) -/

/-- Python whitespace characters recognised by `str.strip` / `float`. -/
def isPySpace (c : Char) : Bool :=
  c = ' ' || c = '\t' || c = '\n' || c = '\x0d' || c = '\x0b' || c = '\x0c'

/-- Python `str.strip()`. -/
def pyStrip (s : String) : String :=
  String.mk (((s.data.dropWhile isPySpace).reverse.dropWhile isPySpace).reverse)

/-- Worker for `pySplit`; fuel-based recursion (the fuel is at least the
input length, so the fallback branch is never reached in use). -/
def splitGo (sep : List Char) : ℕ → List Char → List Char → List (List Char)
  | 0, rest, acc => [acc.reverse ++ rest]
  | fuel + 1, s, acc =>
    match s with
    | [] => [acc.reverse]
    | c :: cs =>
      if sep.isPrefixOf s then
        acc.reverse :: splitGo sep fuel (s.drop sep.length) []
      else
        splitGo sep fuel cs (c :: acc)

/-- Python `s.split(sep)` for a non-empty separator. -/
def pySplit (sep s : String) : List String :=
  (splitGo sep.data (s.data.length + 1) s.data []).map String.mk

/-- Digits to a natural number (callers guarantee the characters are
decimal digits). -/
def digitsToNat (l : List Char) : ℕ :=
  l.foldl (fun n c => n * 10 + (c.toNat - 48)) 0

/-- Python `int()` on a string of decimal digits (the only use sites are
regex-validated digit groups). -/
def pyInt (s : String) : ℕ := digitsToNat s.data

/-- Exponent part of a float literal: optional sign then digits. -/
def parseExp (t : List Char) : Option ℤ :=
  let (neg, t) := match t with
    | '-' :: r => (true, r)
    | '+' :: r => (false, r)
    | _ => (false, t)
  let (ds, rest) := t.span (·.isDigit)
  if ds = [] ∨ rest ≠ [] then none
  else some (if neg then -(digitsToNat ds : ℤ) else (digitsToNat ds : ℤ))

/-- Decimal value from integer-part digits and fraction-part digits. -/
def mkDec (ip fp : List Char) : ℚ :=
  (digitsToNat ip : ℚ) + (digitsToNat fp : ℚ) / pow10 fp.length

/-- Unsigned decimal float literal: `digits`, `digits.`, `.digits`,
`digits.digits`, each with an optional exponent. -/
def parseDecimal (t : List Char) : Option ℚ :=
  let (ip, rest) := t.span (·.isDigit)
  match rest with
  | [] => if ip = [] then none else some (digitsToNat ip : ℚ)
  | '.' :: rest2 =>
    let (fp, rest3) := rest2.span (·.isDigit)
    if ip = [] ∧ fp = [] then none
    else
      match rest3 with
      | [] => some (mkDec ip fp)
      | 'e' :: es => (parseExp es).map (fun ex => mulPow10 (mkDec ip fp) ex)
      | 'E' :: es => (parseExp es).map (fun ex => mulPow10 (mkDec ip fp) ex)
      | _ => none
  | 'e' :: es =>
    if ip = [] then none
    else (parseExp es).map (fun ex => mulPow10 (digitsToNat ip : ℚ) ex)
  | 'E' :: es =>
    if ip = [] then none
    else (parseExp es).map (fun ex => mulPow10 (digitsToNat ip : ℚ) ex)
  | _ => none

/-- Python `float(s)`: strip whitespace, optional sign, then a decimal
literal or `inf`/`infinity`/`nan` (lower case suffices for this code
base). `none` models a `ValueError`. -/
def pyFloat? (s : String) : Option PyFloat :=
  let t := (pyStrip s).data
  let (neg, t) := match t with
    | '-' :: r => (true, r)
    | '+' :: r => (false, r)
    | _ => (false, t)
  if t = "inf".data ∨ t = "infinity".data then
    some (if neg then .ninf else .pinf)
  else if t = "nan".data then some .nan
  else (parseDecimal t).map (fun q => .fin (if neg then -q else q))

/-! ### Decimal formatting of floats -/

/-- Number of decimal digits minus one of a positive natural number
(structural-fuel version of `log₁₀`, so that it reduces in the kernel). -/
def natLog10Go : ℕ → ℕ → ℕ
  | _, 0 => 0
  | n, fuel + 1 => if n < 10 then 0 else natLog10Go (n / 10) fuel + 1

/-- Smallest `k ≥ start` with `1 ≤ q * 10 ^ k` (fuel-bounded; ample for
every value formatted in this development). -/
def smallestKGo (q : ℚ) (start : ℕ) : ℕ → ℕ
  | 0 => start
  | fuel + 1 =>
    if 1 ≤ q * pow10 start then start else smallestKGo q (start + 1) fuel

/-- Decimal exponent of a positive rational: the `e` with
`10 ^ e ≤ q < 10 ^ (e + 1)`. -/
def decExpPos (q : ℚ) : ℤ :=
  if 1 ≤ q then (natLog10Go q.floor.toNat 64 : ℤ)
  else -(smallestKGo q 1 400 : ℤ)

/-- Round a nonnegative rational to the nearest natural number, ties to
even (the rounding used by C's `%g` formatting). -/
def roundHalfEven (q : ℚ) : ℕ :=
  let f := q.floor
  let r := q - (f : ℚ)
  if r < 1 / 2 then f.toNat
  else if 1 / 2 < r then (f + 1).toNat
  else if f % 2 = 0 then f.toNat else (f + 1).toNat

/-- Drop trailing `'0'` characters. -/
def stripTrailingZeros (l : List Char) : List Char :=
  (l.reverse.dropWhile (· = '0')).reverse

/-- Left-pad the decimal digits of `n` with zeros to width `w`. -/
def padNum (w : ℕ) (n : ℕ) : String :=
  let s := toString n
  String.mk (List.replicate (w - s.length) '0') ++ s

/-- `%g` formatting of a positive rational with 6 significant digits:
positional for decimal exponent in `[-4, 6)`, scientific otherwise,
trailing zeros stripped. -/
def formatGPos (q : ℚ) : String :=
  let e0 := decExpPos q
  let n0 := roundHalfEven (mulPow10 q (5 - e0))
  let (n, e) := if n0 = 1000000 then (100000, e0 + 1) else (n0, e0)
  let ds := (toString n).data
  if -4 ≤ e ∧ e < 6 then
    if 0 ≤ e then
      let ip := ds.take (e.toNat + 1)
      let fp := stripTrailingZeros (ds.drop (e.toNat + 1))
      if fp = [] then String.mk ip else String.mk ip ++ "." ++ String.mk fp
    else
      "0." ++ String.mk (List.replicate ((-e).toNat - 1) '0') ++
        String.mk (stripTrailingZeros ds)
  else
    let fp := stripTrailingZeros (ds.drop 1)
    let mant := if fp = [] then String.mk (ds.take 1)
      else String.mk (ds.take 1) ++ "." ++ String.mk fp
    mant ++ "e" ++ (if e < 0 then "-" else "+") ++ padNum 2 (e.natAbs)

/-- Python `f"{v:g}"` on a float (`inf` and `nan` render as such). -/
def formatG : PyFloat → String
  | .fin q =>
    if q = 0 then "0"
    else if q < 0 then "-" ++ formatGPos (-q) else formatGPos q
  | .pinf => "inf"
  | .ninf => "-inf"
  | .nan => "nan"

/-- Smallest `k` such that `q * 10 ^ k` is an integer (fuel-bounded). -/
def minDecPlacesGo (q : ℚ) (k : ℕ) : ℕ → Option ℕ
  | 0 => none
  | fuel + 1 =>
    if (q * pow10 k).den = 1 then some k else minDecPlacesGo q (k + 1) fuel

/-- Python `str()`/`repr()` of a float value.  Faithful on values with a
terminating decimal expansion in the positional range (every value any
theorem below prints); values outside that class fall back to `%g`. -/
def pyRepr : PyFloat → String
  | .pinf => "inf"
  | .ninf => "-inf"
  | .nan => "nan"
  | .fin q =>
    let sign := if q < 0 then "-" else ""
    let a := qabs q
    match minDecPlacesGo a 0 60 with
    | some 0 => sign ++ toString a.num.natAbs ++ ".0"
    | some k =>
      let scaled := (a * pow10 k).num.toNat
      let ds := (toString scaled).data
      let ds := List.replicate (k + 1 - ds.length) '0' ++ ds
      let ip := ds.take (ds.length - k)
      let fp := ds.drop (ds.length - k)
      sign ++ String.mk ip ++ "." ++ String.mk fp
    | none => formatG (.fin q)

/-- Python `str()` of the `num_meas_between` attribute: an `int` renders
without a decimal point (which is how the corrector stores it; a value
re-loaded from disk would be a float, a distinction the exact model does
not keep). -/
def pyStrNum (v : PyFloat) : String :=
  match v with
  | .fin q => if q.den = 1 then toString q.num else pyRepr v
  | _ => pyRepr v

/-! ### Timestamps -/

/-- A `datetime.datetime` value, to second precision (the precision used
by this program). -/
structure PyDateTime where
  year : ℕ
  month : ℕ
  day : ℕ
  hour : ℕ
  minute : ℕ
  second : ℕ
deriving DecidableEq

/-- Lexicographic order on timestamps (the `datetime` comparison used by
`list.sort`). -/
def PyDateTime.leb (a b : PyDateTime) : Bool :=
  if a.year ≠ b.year then a.year ≤ b.year
  else if a.month ≠ b.month then a.month ≤ b.month
  else if a.day ≠ b.day then a.day ≤ b.day
  else if a.hour ≠ b.hour then a.hour ≤ b.hour
  else if a.minute ≠ b.minute then a.minute ≤ b.minute
  else a.second ≤ b.second

/-- `strftime('%Y-%m-%d %H:%M:%S')`. -/
def fmtTimestamp (t : PyDateTime) : String :=
  padNum 4 t.year ++ "-" ++ padNum 2 t.month ++ "-" ++ padNum 2 t.day ++ " " ++
    padNum 2 t.hour ++ ":" ++ padNum 2 t.minute ++ ":" ++ padNum 2 t.second

/-- Exactly `n` decimal digits, returning their value. -/
def takeDigits (n : ℕ) (l : List Char) : Option (ℕ × List Char) :=
  let ds := l.take n
  if ds.length = n ∧ ds.all (·.isDigit) then some (digitsToNat ds, l.drop n)
  else none

/-- A single expected character. -/
def takeChar (c : Char) : List Char → Option (List Char)
  | c' :: rest => if c' = c then some rest else none
  | [] => none

/-- `strptime(s, '%Y-%m-%d %H:%M:%S')`: fixed-width fields with the
range validation `strptime` performs; `none` models a `ValueError`. -/
def parseTimestamp (s : String) : Option PyDateTime := do
  let t := s.data
  let (y, t) ← takeDigits 4 t
  let t ← takeChar '-' t
  let (mo, t) ← takeDigits 2 t
  let t ← takeChar '-' t
  let (d, t) ← takeDigits 2 t
  let t ← takeChar ' ' t
  let (h, t) ← takeDigits 2 t
  let t ← takeChar ':' t
  let (mi, t) ← takeDigits 2 t
  let t ← takeChar ':' t
  let (sec, t) ← takeDigits 2 t
  if t = [] ∧ 1 ≤ mo ∧ mo ≤ 12 ∧ 1 ≤ d ∧ d ≤ 31 ∧ h ≤ 23 ∧ mi ≤ 59 ∧
      sec ≤ 61 then
    some ⟨y, mo, d, h, mi, sec⟩
  else none

/-! ### The cell registry (`cells.py`) -/

/-- A measurement channel: name, port, ordered parameter list (always
headed by the temperature parameter) and per-parameter default values. -/
structure Cell where
  name : String
  port : ℕ
  pars : List String
  par_defaults : List (String × Option ℚ)
deriving DecidableEq

/-- The `Cell` constructor: `'Temp (°C)'` plus the extra parameters; the
defaults map is all-`None` overwritten by the provided entries (whose keys
are a subset of the parameters for every registry cell, so the
constructor's `ValueError` branch is unreachable). -/
def mkCell (name : String) (port : ℕ) (extra_pars : List String)
    (par_defaults : List (String × Option ℚ)) : Cell :=
  let pars := "Temp (°C)" :: extra_pars
  ⟨name, port, pars, pars.map (fun p => (p, (dlookup p par_defaults).getD none))⟩

/-- `DualFilCell`. -/
def mkDualFilCell (name : String) (port : ℕ) (tip_ratio_default : Option ℚ) :
    Cell :=
  mkCell name port ["Tip Ratio (%)"] [("Tip Ratio (%)", tip_ratio_default)]

/-- `SingleFilCell`. -/
def mkSingleFilCell (name : String) (port : ℕ) : Cell :=
  mkCell name port [] []

/-- `AsCell`. -/
def mkAsCell (name : String) (port : ℕ) (cracker_temp_default : Option ℚ) :
    Cell :=
  mkCell name port ["Valve (%)", "Crack Temp (°C)", "Time after opening (min)"]
    [("Crack Temp (°C)", cracker_temp_default)]

/-- `SbCell`. -/
def mkSbCell (name : String) (port : ℕ) (cracker_temp_default : Option ℚ)
    (cond_temp_default : Option ℚ) : Cell :=
  mkCell name port ["Valve (%)", "Crack Temp (°C)", "Cond Temp (°C)"]
    [("Crack Temp (°C)", cracker_temp_default),
     ("Cond Temp (°C)", cond_temp_default)]

/-- The process-wide cell registry (2020–2021 campaign ports). -/
def cells : List Cell :=
  [mkAsCell "As" 1 (some 950),
   mkDualFilCell "In1" 2 (some 200),
   mkSingleFilCell "Al2" 6,
   mkDualFilCell "Ga2" 7 (some 250),
   mkDualFilCell "Ga1" 8 (some 350),
   mkDualFilCell "In2" 9 (some 200),
   mkSingleFilCell "Al1" 10,
   mkSbCell "Sb" 11 (some 950) (some 800)]

/-- `CellList.find_by_port`: first cell with the port, else `ValueError`. -/
def cells_find_by_port (port : ℕ) : Except String Cell :=
  match cells.find? (fun c => c.port = port) with
  | some c => .ok c
  | none => .error ("No cell with port " ++ toString port)

/-- `CellList.find_by_name`: first cell with the name, else `ValueError`. -/
def cells_find_by_name (name : String) : Except String Cell :=
  match cells.find? (fun c => c.name = name) with
  | some c => .ok c
  | none => .error ("No cell with name " ++ name)

/-! ### Reading types -/

/-- `BkgrndMIGReading`. -/
structure BkgrndMIGReading where
  timestamp : PyDateTime
  MIG_current : ℚ
  signal_to_noise : Option PyFloat
  reading_num : Option ℤ
deriving DecidableEq

/-- `FluxMIGReading`. -/
structure FluxMIGReading where
  timestamp : PyDateTime
  cell : Cell
  cell_par_vals : List (String × Option PyFloat)
  MIG_current : ℚ
  signal_to_noise : Option PyFloat
  reading_num : Option ℤ
deriving DecidableEq

/-- `CorrMIGReading`.  Fields that can be `None` on either the corrector
path or the load path are optional. -/
structure CorrMIGReading where
  timestamp : PyDateTime
  cell : Cell
  cell_par_vals : List (String × Option PyFloat)
  MIG_current : Option PyFloat
  signal_to_noise : Option PyFloat
  signal_to_background : Option PyFloat
  num_meas_between : Option PyFloat
deriving DecidableEq

/-- A reading as it appears in the per-file batch handled by
`subtract_background_simple` (the `MIGReading` class hierarchy as a sum;
a corrected reading hits that function's `else: raise` branch). -/
inductive Reading where
  | flux (f : FluxMIGReading)
  | bkgrnd (b : BkgrndMIGReading)
  | corr (c : CorrMIGReading)
deriving DecidableEq

/-- The calibrated current of a parsed reading. -/
def readingMIG : Reading → Option ℚ
  | .flux f => some f.MIG_current
  | .bkgrnd b => some b.MIG_current
  | .corr _ => none

/-- The stored reading number of a parsed reading. -/
def readingNumOf : Reading → Option ℤ
  | .flux f => f.reading_num
  | .bkgrnd b => b.reading_num
  | .corr _ => none

/-- The signal-to-noise of a reading. -/
def readingSnr : Reading → Option PyFloat
  | .flux f => f.signal_to_noise
  | .bkgrnd b => b.signal_to_noise
  | .corr c => c.signal_to_noise

/-- The timestamp of a reading. -/
def readingTs : Reading → PyDateTime
  | .flux f => f.timestamp
  | .bkgrnd b => b.timestamp
  | .corr c => c.timestamp

/-! ### The line grammar (`flux_line_pattern`)

The source regex is
`^(?P<type>Fluxcal   |Background), Cell, (?P<cell>\d+), Reading,
(?P<num>\d+), Temp, (?P<temp>\d+\.\d+), Average, (?P<avg>\d+\.\d+),
Readings(?P<vals>(, \d+\.\d+ ){24})$`, applied with `re.match` (anchored
at the start; `$` also matches just before one trailing newline).  On
this grammar greedy matching is deterministic, so it is modelled by a
straight-line matcher over the character list. -/

/-- The named capture groups of `flux_line_pattern` (raw group text,
exactly as the regex captures it). -/
structure LineMatch where
  typeStr : String
  cellStr : String
  numStr : String
  tempStr : String
  avgStr : String
  valsStr : String
deriving DecidableEq

/-- Consume an exact literal. -/
def chompLit (lit : List Char) (s : List Char) : Option (List Char) :=
  if lit.isPrefixOf s then some (s.drop lit.length) else none

/-- Consume `\d+` (greedy, at least one digit). -/
def chompDigits (s : List Char) : Option (List Char × List Char) :=
  let (ds, rest) := s.span (·.isDigit)
  if ds = [] then none else some (ds, rest)

/-- Consume `\d+\.\d+`. -/
def chompFloat (s : List Char) : Option (List Char × List Char) := do
  let (ip, s) ← chompDigits s
  let s ← chompLit ['.'] s
  let (fp, s) ← chompDigits s
  some (ip ++ '.' :: fp, s)

/-- Consume one `, \d+\.\d+ ` group of the `vals` capture. -/
def chompValGroup (s : List Char) : Option (List Char × List Char) := do
  let s1 ← chompLit [',', ' '] s
  let (v, s2) ← chompFloat s1
  let s3 ← chompLit [' '] s2
  some (',' :: ' ' :: v ++ [' '], s3)

/-- Consume `(, \d+\.\d+ ){n}`, returning the consumed text. -/
def chompValGroups : ℕ → List Char → Option (List Char × List Char)
  | 0, s => some ([], s)
  | n + 1, s => do
    let (v, s) ← chompValGroup s
    let (vs, s) ← chompValGroups n s
    some (v ++ vs, s)

/-- `flux_line_pattern.match(line)`: the capture groups, or `none` when
the line does not match. -/
def flux_line_match (line : String) : Option LineMatch := do
  let s := line.data
  let (ty, s) ←
    match chompLit "Fluxcal   ".data s with
    | some s' => some ("Fluxcal   ", s')
    | none =>
      match chompLit "Background".data s with
      | some s' => some ("Background", s')
      | none => none
  let s ← chompLit ", Cell, ".data s
  let (cellDs, s) ← chompDigits s
  let s ← chompLit ", Reading, ".data s
  let (numDs, s) ← chompDigits s
  let s ← chompLit ", Temp, ".data s
  let (tempDs, s) ← chompFloat s
  let s ← chompLit ", Average, ".data s
  let (avgDs, s) ← chompFloat s
  let s ← chompLit ", Readings".data s
  let (valsDs, s) ← chompValGroups 24 s
  if s = [] ∨ s = ['\n'] then
    some ⟨ty, String.mk cellDs, String.mk numDs, String.mk tempDs,
      String.mk avgDs, String.mk valsDs⟩
  else none

/-- Convert a regex-validated `\d+\.\d+` group with Python `float()`
(which cannot fail there; a non-finite result is likewise impossible). -/
def floatOfGroup (s : String) : Except String ℚ :=
  match pyFloat? s with
  | some (.fin q) => .ok q
  | _ => .error ("could not convert string to float: '" ++ s ++ "'")

/-- The value strings of the `vals` capture group:
`match['vals'].split(',')[1:]`. -/
def valStringsOf (valsStr : String) : List String :=
  (pySplit "," valsStr).drop 1

/-- The field extraction both `parse_flux_line` and
`create_reading_from_XGEN_line` perform on a matched line (the source
repeats this block verbatim in the two functions):
`(meas_type, port, temp, avg, num, vals)`. -/
def extract_line_fields (line : String) :
    Except String (String × ℕ × ℚ × ℚ × ℕ × List ℚ) := do
  match flux_line_match line with
  | none => .error ("Unexpected line format:\n'" ++ line ++ "'")
  | some m =>
    let meas_type := pyStrip m.typeStr
    let port := pyInt m.cellStr
    let temp ← floatOfGroup m.tempStr
    let avg ← floatOfGroup m.avgStr
    let num := pyInt m.numStr
    let vals ← (valStringsOf m.valsStr).mapM floatOfGroup
    .ok (meas_type, port, temp, avg, num, vals)

/-- `parse_flux_line`: capture groups converted to values, in the
source's result order `(meas_type, port, temp, num, vals)` (the reported
average is parsed but not returned). -/
def parse_flux_line (line : String) :
    Except String (String × ℕ × ℚ × ℕ × List ℚ) := do
  let f ← extract_line_fields line
  .ok (f.1, f.2.1, f.2.2.1, f.2.2.2.2.1, f.2.2.2.2.2)

/-- The trimmed 20-element sample list: remove the current maximum then
the current minimum, twice (`list.remove` drops the first occurrence,
as `List.erase` does). -/
def reduceVals (vals : List ℚ) : List ℚ :=
  let r1 := vals.erase (vals.foldl qmax (vals.headD 0))
  let r2 := r1.erase (r1.foldl qmin (r1.headD 0))
  let r3 := r2.erase (r2.foldl qmax (r2.headD 0))
  r3.erase (r3.foldl qmin (r3.headD 0))

/-- The source's average validation `(MIG_current - avg)/avg > 1e-12`,
with the float semantics of a zero reported average made explicit
(`x/0.0` is `±inf`/`nan`, so the comparison holds exactly for a positive
numerator).  Note the test is one-sided: no absolute value is taken. -/
def avgMismatch (mig avg : ℚ) : Bool :=
  if avg = 0 then 0 < mig
  else (mig - avg) / avg > 1 / 1000000000000

/-- `create_reading_from_XGEN_line`: match the line, reduce the samples,
validate the reported average, compute the signal-to-noise, and build the
typed reading.  The temperature is stored in the parameter map under the
source's (mojibake) literal key `'Temp (Â°C)'`. -/
def create_reading_from_XGEN_line (line : String) (timestamp : PyDateTime) :
    Except String Reading := do
  let f ← extract_line_fields line
  let meas_type := f.1
  let port := f.2.1
  let temp := f.2.2.1
  let avg := f.2.2.2.1
  let reading_num := f.2.2.2.2.1
  let vals := f.2.2.2.2.2
  let cell ← cells_find_by_port port
  let cell_par_vals :=
    dictSet (cell.pars.map (fun par => (par, (none : Option PyFloat))))
      "Temp (Â°C)" (some (.fin temp))
  let vals_reduced := reduceVals vals
  let MIG_current := npAverage vals_reduced
  if avgMismatch MIG_current avg then
    .error ("Average reading in file does not match calculated average")
  else
    let signal_to_noise := pyDivQ MIG_current (npStd vals_reduced)
    if meas_type = "Background" then
      .ok (.bkgrnd ⟨timestamp, MIG_current, some signal_to_noise,
        some (reading_num : ℤ)⟩)
    else if meas_type = "Fluxcal" then
      .ok (.flux ⟨timestamp, cell, cell_par_vals, MIG_current,
        some signal_to_noise, some (reading_num : ℤ)⟩)
    else
      .error ("Unexpected measurement type '" ++ meas_type ++ "'")

/-! ### The flux/background corrector -/

/-- The arithmetic body of `FluxMIGReading.subtract_background` (run
after the timestamp guard has passed): corrected current, propagated
signal-to-noise (only when both inputs have a truthy one), the
signal-to-background ratio and the reading-count gap (only when both
reading numbers are truthy, i.e. present and nonzero, and the timestamps
agree — at this point they always do). -/
def subtract_body (self : FluxMIGReading) (background : BkgrndMIGReading) :
    CorrMIGReading :=
  let MIG_current := self.MIG_current - background.MIG_current
  let signal_to_noise :=
    if optFloatTruthy self.signal_to_noise &&
        optFloatTruthy background.signal_to_noise then
      match self.signal_to_noise, background.signal_to_noise with
      | some s, some bs =>
        let noise := qDivPF self.MIG_current s
        let bg_noise := qDivPF background.MIG_current bs
        some (qDivPF MIG_current
          (npSqrtF (pyAdd (pyMul noise noise) (pyMul bg_noise bg_noise))))
      | _, _ => none
    else none
  let signal_to_background := pyDivQ self.MIG_current background.MIG_current
  let num_meas_between :=
    match background.reading_num, self.reading_num with
    | some bn, some sn =>
      if bn ≠ 0 && sn ≠ 0 then
        if self.timestamp = background.timestamp then
          some (PyFloat.fin ((bn - sn : ℤ) : ℚ))
        else none
      else none
    | _, _ => none
  ⟨self.timestamp, self.cell, self.cell_par_vals, some (.fin MIG_current),
    signal_to_noise, some signal_to_background, num_meas_between⟩

/-- `FluxMIGReading.subtract_background`: `ValueError` on mismatched
timestamps, otherwise the corrected reading. -/
def FluxMIGReading.subtract_background (self : FluxMIGReading)
    (background : BkgrndMIGReading) : Except String CorrMIGReading :=
  if self.timestamp ≠ background.timestamp then
    .error "Reading and background have incompatible timestamps"
  else
    .ok (subtract_body self background)

/-- The partition phase of `subtract_background_simple`: ordered
`(file index, reading)` lists of flux and background readings; anything
else raises `ValueError`. -/
def partitionRs : List (ℕ × Reading) →
    Except String (List (ℕ × FluxMIGReading) × List (ℕ × BkgrndMIGReading))
  | [] => .ok ([], [])
  | p :: rest => do
    let fb ← partitionRs rest
    match p.2 with
    | .bkgrnd b => .ok (fb.1, (p.1, b) :: fb.2)
    | .flux f => .ok ((p.1, f) :: fb.1, fb.2)
    | .corr _ => .error "Unexpected reading type."

/-- The warning text printed for a skipped measurement. -/
def skipWarning (i : ℕ) : String :=
  "Warning: could not find background reading. Skipping measurement " ++
    toString i ++ "."

/-- The pairing phase: each flux reading takes the first background whose
file index is strictly larger; a flux with no such background is skipped
and its warning recorded (the source prints it). -/
def pairGo (bgs : List (ℕ × BkgrndMIGReading)) :
    List (ℕ × FluxMIGReading) →
    Except String (List String × List CorrMIGReading)
  | [] => .ok ([], [])
  | p :: rest =>
    match bgs.find? (fun q => p.1 < q.1) with
    | some q => do
      let c ← p.2.subtract_background q.2
      let wc ← pairGo bgs rest
      .ok (wc.1, c :: wc.2)
    | none => do
      let wc ← pairGo bgs rest
      .ok (skipWarning p.1 :: wc.1, wc.2)

/-- `subtract_background_simple`, with the printed warnings returned
alongside the corrected readings (modelling the source's `print` side
effect). -/
def subtract_background_simple (readings : List Reading) :
    Except String (List String × List CorrMIGReading) := do
  let fb ← partitionRs readings.enum
  pairGo fb.2 fb.1

/-! ### The persistent store -/

/-- The file system visible to the store: file name to file content. -/
abbrev FileSys : Type := List (String × String)

/-- The empty file system. -/
def fsEmpty : FileSys := []

/-- `generate_header`: resolve the cell, then the fixed text columns. -/
def generate_header (cellname : String) : Except String String := do
  let cell ← cells_find_by_name cellname
  .ok ("Timestamp" ++ String.join (cell.pars.map (fun par => ", " ++ par)) ++
    ", MIG (nA), Signal-to-noise, Signal-to-background" ++
    ", Num meas between sig and BG")

/-- One parameter field of a store line: a truthy value renders with
`%g`, while `None` — and, identically, `0.0` — renders as the empty
string. -/
def parField (val : Option PyFloat) : String :=
  match val with
  | some v => if v.truthy then formatG v else ""
  | none => ""

/-- `print_line`: the store row for one corrected reading (leading
newline, timestamp, parameter fields, then the numeric columns).  A
`None` current or signal-to-background hits a `%g` format of `None`,
a `TypeError`; a `None` signal-to-noise or gap count renders as the
literal text `None`. -/
def print_line (reading : CorrMIGReading) : Except String String := do
  let parts := reading.cell_par_vals.map (fun p => ", " ++ parField p.2)
  let mig ← match reading.MIG_current with
    | some v => Except.ok (formatG v)
    | none => Except.error "unsupported format string passed to NoneType"
  let stb ← match reading.signal_to_background with
    | some v => Except.ok (formatG v)
    | none => Except.error "unsupported format string passed to NoneType"
  let snr := match reading.signal_to_noise with
    | some v => pyRepr v
    | none => "None"
  let nmb := match reading.num_meas_between with
    | some v => pyStrNum v
    | none => "None"
  .ok ("\n" ++ fmtTimestamp reading.timestamp ++ String.join parts ++
    ", " ++ mig ++ ", " ++ snr ++ ", " ++ stb ++ ", " ++ nmb)

/-- `read_float`: empty string to `None`, otherwise Python `float`
(raising `ValueError` on unparseable text such as `"None"`). -/
def read_float (s : String) : Except String (Option PyFloat) :=
  if s ≠ "" then
    match pyFloat? s with
    | some v => .ok (some v)
    | none => .error ("could not convert string to float: '" ++ s ++ "'")
  else .ok none

/-- Dictionary built by `zip(valnames, vals)` (later duplicates win, as
in a Python dict comprehension). -/
def zipDict (valnames vals : List String) : List (String × String) :=
  (valnames.zip vals).foldl (fun d kv => dictSet d kv.1 kv.2) []

/-- Python `d[k]`, raising `KeyError` when absent. -/
def keyLookup (d : List (String × String)) (k : String) :
    Except String String :=
  match dlookup k d with
  | some v => .ok v
  | none => .error ("KeyError: '" ++ k ++ "'")

/-- One body row of a store file parsed back into a corrected reading
(the source's loop body in `load_readings`, in its evaluation order). -/
def parse_store_line (cell : Cell) (valnames : List String) (line : String) :
    Except String CorrMIGReading := do
  let vals := pySplit ", " (pyStrip line)
  let valdict := zipDict valnames vals
  let tsStr ← keyLookup valdict "Timestamp"
  let some timestamp := parseTimestamp tsStr
    | .error ("time data '" ++ tsStr ++ "' does not match format")
  let MIG_current ← read_float (← keyLookup valdict "MIG (nA)")
  let signal_to_noise ← read_float (← keyLookup valdict "Signal-to-noise")
  let signal_to_background ←
    read_float (← keyLookup valdict "Signal-to-background")
  let num_meas_between ←
    read_float (← keyLookup valdict "Num meas between sig and BG")
  let cell_par_vals ← cell.pars.mapM (fun par => do
    let v ← read_float (← keyLookup valdict par)
    Except.ok (par, v))
  .ok ⟨timestamp, cell, cell_par_vals, MIG_current, signal_to_noise,
    signal_to_background, num_meas_between⟩

/-- One whole store file parsed: header line checked against the
registry-generated header, then every body row. -/
def parse_store_file (cellname : String) (cell : Cell) (content : String) :
    Except String (List CorrMIGReading) := do
  match pySplit "\n" content with
  | [] => .error "empty split"
  | headerLine :: body =>
    let header := pyStrip headerLine
    let gh ← generate_header cellname
    if header ≠ gh then .error "Unexpected file header."
    else do
      let valnames := pySplit ", " header
      body.mapM (parse_store_line cell valnames)

/-- The accumulation loop of `load_readings`.  A missing file makes the
whole call return the empty list at once (`return []`), dropping the
readings of channels already processed. -/
def loadGo : List String → FileSys → List CorrMIGReading →
    Except String (List CorrMIGReading)
  | [], _, readings => .ok readings
  | cellname :: rest, fs, readings => do
    let cell ← cells_find_by_name cellname
    match dlookup (cellname ++ ".txt") fs with
    | none => .ok []
    | some content => do
      let rds ← parse_store_file cellname cell content
      loadGo rest fs (readings ++ rds)

/-- `load_readings` over the modelled file system. -/
def load_readings (cellnames : List String) (fs : FileSys) :
    Except String (List CorrMIGReading) :=
  loadGo cellnames fs []

/-! ### Partitioning and merging -/

/-- `split_readings_by_timestamp`: group a list of corrected readings by
timestamp, keys in first-appearance order, each group in list order. -/
def split_readings_by_timestamp (readings : List CorrMIGReading) :
    List (PyDateTime × List CorrMIGReading) :=
  readings.foldl (fun d r => dictAppend d r.timestamp r) []

/-- `split_readings_by_cellname`. -/
def split_readings_by_cellname (readings : List CorrMIGReading) :
    List (String × List CorrMIGReading) :=
  readings.foldl (fun d r => dictAppend d r.cell.name r) []

/-- The two-level partition type: channel name → timestamp → readings. -/
abbrev Split : Type := List (String × List (PyDateTime × List CorrMIGReading))

/-- `split_readings`: partition by cell, then each group by timestamp. -/
def split_readings (readings : List CorrMIGReading) : Split :=
  (split_readings_by_cellname readings).map
    (fun p => (p.1, split_readings_by_timestamp p.2))

/-- `unsplit_readings`: flatten the two-level partition in key order. -/
def unsplit_readings (s : Split) : List CorrMIGReading :=
  (s.map (fun p => (p.2.map Prod.snd).flatten)).flatten

/-- The inner loop of `merge_readings` for one channel present in both
data sets: adopt each of new data's timestamp groups when the timestamp
is absent from the accumulated dictionary or `overwrite_old` holds. -/
def mergeCellGo (overwrite_old : Bool) :
    List (PyDateTime × List CorrMIGReading) →
    List (PyDateTime × List CorrMIGReading) →
    List (PyDateTime × List CorrMIGReading)
  | [], acc => acc
  | (t, lst) :: rest, acc =>
    mergeCellGo overwrite_old rest
      (if (dlookup t acc).isNone || overwrite_old then dictSet acc t lst
       else acc)

/-- The outer loop of `merge_readings`: start from old data's partition;
a channel absent there is adopted from new data wholesale, otherwise its
timestamp groups are merged by `mergeCellGo`. -/
def mergeSplitGo (overwrite_old : Bool) : Split → Split → Split
  | [], acc => acc
  | (c, inner) :: rest, acc =>
    mergeSplitGo overwrite_old rest
      (match dlookup c acc with
       | none => acc ++ [(c, inner)]
       | some oldInner => dictSet acc c (mergeCellGo overwrite_old inner oldInner))

/-- The partition-level merge underlying `merge_readings`. -/
def merge_split (newS oldS : Split) (overwrite_old : Bool) : Split :=
  mergeSplitGo overwrite_old newS oldS

/-- `merge_readings`. -/
def merge_readings (new_readings old_readings : List CorrMIGReading)
    (overwrite_old : Bool) : List CorrMIGReading :=
  unsplit_readings
    (merge_split (split_readings new_readings) (split_readings old_readings)
      overwrite_old)

/-- Lookup of the reading list stored under a channel and timestamp in a
partition. -/
def lookup2 (s : Split) (c : String) (t : PyDateTime) :
    Option (List CorrMIGReading) :=
  (dlookup c s).bind (dlookup t)

/-- Insertion sort by a Boolean `≤` (models `list.sort`, which is stable;
insertion sort is stable as well). -/
def insertSorted (leb : α → α → Bool) (x : α) : List α → List α
  | [] => [x]
  | y :: ys => if leb y x then y :: insertSorted leb x ys else x :: y :: ys

/-- `list.sort` by a Boolean `≤`. -/
def sortBy (leb : α → α → Bool) : List α → List α
  | [] => []
  | x :: xs => insertSorted leb x (sortBy leb xs)

/-- `write_readings` over the modelled file system: partition, refuse to
touch an existing file unless `delete_old_data_first`, then write each
channel's header and (timestamp-sorted) rows. -/
def write_readings (readings : List CorrMIGReading) (fs : FileSys)
    (delete_old_data_first : Bool) (sort : Bool) : Except String FileSys := do
  let readings_split := split_readings readings
  let _ ← readings_split.mapM (fun p =>
    if (dlookup (p.1 ++ ".txt") fs).isSome && !delete_old_data_first then
      Except.error ("Data file '" ++ p.1 ++ ".txt' already exists!" ++
        " Set delete_old_data_first=True if you want to overwrite.")
    else Except.ok ())
  readings_split.foldlM (fun fs1 p => do
    let (cellname, inner) := p
    let timestamps :=
      if sort then sortBy PyDateTime.leb (inner.map Prod.fst)
      else inner.map Prod.fst
    let header ← generate_header cellname
    let body ← timestamps.foldlM (fun acc t => do
      match dlookup t inner with
      | some lst => do
        let strs ← lst.mapM print_line
        Except.ok (acc ++ String.join strs)
      | none => Except.ok acc) ""
    Except.ok (dictSet fs1 (cellname ++ ".txt") (header ++ body))) fs

/-! ### Concrete inputs used in the claim analyses -/

/-- The timestamp of the source's own example file name. -/
def ts2021 : PyDateTime := ⟨2021, 2, 3, 11, 39, 38⟩

/-- The end-to-end example line of the specification (§8), verbatim: it
contains the signed sample `-10.0` and ends with a trailing comma. -/
def specEndToEndLine : String :=
  "Fluxcal   , Cell, 1, Reading, 0, Temp, 950.00, Average, 12.5000, Readings, -10.0 , 12.0 , 12.5 , 12.5 , 12.5 , 12.5 , 12.5 , 12.5 , 12.5 , 12.5 , 12.5 , 12.5 , 12.5 , 12.5 , 12.5 , 12.5 , 12.5 , 12.5 , 12.5 , 12.5 , 12.5 , 12.5 , 12.5 , 30.0 ,"

/-- The specification's end-to-end line brought into the shape the
source regex actually accepts: `-10.0` replaced by the unsigned `10.0`
and the trailing comma dropped (the 20 middle samples still average to
12.5). -/
def fixedEndToEndLine : String :=
  "Fluxcal   , Cell, 1, Reading, 0, Temp, 950.00, Average, 12.5000, Readings, 10.0 , 12.0 , 12.5 , 12.5 , 12.5 , 12.5 , 12.5 , 12.5 , 12.5 , 12.5 , 12.5 , 12.5 , 12.5 , 12.5 , 12.5 , 12.5 , 12.5 , 12.5 , 12.5 , 12.5 , 12.5 , 12.5 , 12.5 , 30.0 "

/-- The sample values of `fixedEndToEndLine`. -/
def fixedEndToEndVals : List ℚ :=
  10 :: 12 :: List.replicate 21 (25 / 2) ++ [30]

/-- The flux reading `fixedEndToEndLine` creates: As cell, temperature
950 stored under the mojibake key, reduced average `12.5`, infinite
signal-to-noise (the 20 reduced samples are all equal) and the line's
own reading number 0. -/
def fixedEndToEndReading : Reading :=
  .flux ⟨ts2021, mkAsCell "As" 1 (some 950),
    [("Temp (°C)", none), ("Valve (%)", none), ("Crack Temp (°C)", none),
     ("Time after opening (min)", none), ("Temp (Â°C)", some (.fin 950))],
    25 / 2, some .pinf, some 0⟩

/-- A line whose trimmed mean (10.0) is far below the reported average
(20.0): the two-sided tolerance test of the specification fails on it. -/
def underAverageLine : String :=
  "Background, Cell, 1, Reading, 7, Temp, 950.00, Average, 20.0000, Readings, 10.0 , 10.0 , 10.0 , 10.0 , 10.0 , 10.0 , 10.0 , 10.0 , 10.0 , 10.0 , 10.0 , 10.0 , 10.0 , 10.0 , 10.0 , 10.0 , 10.0 , 10.0 , 10.0 , 10.0 , 10.0 , 10.0 , 10.0 , 10.0 "

/-- A line whose 24 samples are all equal, so the 20-element reduced set
has zero standard deviation. -/
def constSamplesLine : String :=
  "Background, Cell, 1, Reading, 3, Temp, 950.00, Average, 12.5000, Readings, 12.5 , 12.5 , 12.5 , 12.5 , 12.5 , 12.5 , 12.5 , 12.5 , 12.5 , 12.5 , 12.5 , 12.5 , 12.5 , 12.5 , 12.5 , 12.5 , 12.5 , 12.5 , 12.5 , 12.5 , 12.5 , 12.5 , 12.5 , 12.5 "

/-- `constSamplesLine` with the `Reading` token changed from 5 to 37 --
see `seqTokenLineB`. -/
def seqTokenLineA : String :=
  "Background, Cell, 1, Reading, 5, Temp, 950.00, Average, 12.5000, Readings, 12.5 , 12.5 , 12.5 , 12.5 , 12.5 , 12.5 , 12.5 , 12.5 , 12.5 , 12.5 , 12.5 , 12.5 , 12.5 , 12.5 , 12.5 , 12.5 , 12.5 , 12.5 , 12.5 , 12.5 , 12.5 , 12.5 , 12.5 , 12.5 "

/-- Identical to `seqTokenLineA` except for the embedded `Reading`
counter token. -/
def seqTokenLineB : String :=
  "Background, Cell, 1, Reading, 37, Temp, 950.00, Average, 12.5000, Readings, 12.5 , 12.5 , 12.5 , 12.5 , 12.5 , 12.5 , 12.5 , 12.5 , 12.5 , 12.5 , 12.5 , 12.5 , 12.5 , 12.5 , 12.5 , 12.5 , 12.5 , 12.5 , 12.5 , 12.5 , 12.5 , 12.5 , 12.5 , 12.5 "

/-- The Al2 channel (single-filament cell: only the temperature
parameter), as registered. -/
def al2Cell : Cell := mkSingleFilCell "Al2" 6

/-- A corrected reading with no reading-count gap (`num_meas_between`
unset), the shape the corrector itself produces whenever a reading
number is 0 or missing; all other fields are set and binary-exact. -/
def unsetGapReading : CorrMIGReading :=
  ⟨ts2021, al2Cell, [("Temp (°C)", some (.fin 1000))], some (.fin (25 / 2)),
   some (.fin (5 / 2)), some (.fin 5), none⟩

/-- A corrected reading whose temperature parameter is the value `0.0`
(all other fields set and exactly representable). -/
def zeroParReading : CorrMIGReading :=
  ⟨ts2021, al2Cell, [("Temp (°C)", some (.fin 0))], some (.fin (25 / 2)),
   some (.fin (5 / 2)), some (.fin 5), some (.fin 2)⟩

/-- `zeroParReading` with the temperature parameter unset: what the
store hands back after a save/load cycle. -/
def zeroParReadingLoaded : CorrMIGReading :=
  ⟨ts2021, al2Cell, [("Temp (°C)", none)], some (.fin (25 / 2)),
   some (.fin (5 / 2)), some (.fin 5), some (.fin 2)⟩

/-- Flux reading with sequence number 0 (the known first index of a
file) and its background with sequence number 5, both at one
timestamp. -/
def zeroIdxFlux : FluxMIGReading :=
  ⟨ts2021, al2Cell, [("Temp (°C)", some (.fin 1000))], 10, some (.fin 5),
   some 0⟩

/-- The same flux reading with the nonzero sequence number 3. -/
def threeIdxFlux : FluxMIGReading :=
  ⟨ts2021, al2Cell, [("Temp (°C)", some (.fin 1000))], 10, some (.fin 5),
   some 3⟩

/-- A background reading with sequence number 5. -/
def fiveIdxBkgrnd : BkgrndMIGReading := ⟨ts2021, 2, some (.fin 4), some 5⟩

/-! ### Specification-side pairing description (for the corrector) -/

/-- Is this reading a flux reading? -/
def isFluxR : Reading → Bool
  | .flux _ => true
  | _ => false

/-- Is this reading a background reading? -/
def isBkgR : Reading → Bool
  | .bkgrnd _ => true
  | _ => false

/-- The first (hence lowest-index, since `List.enum` is in index order)
background reading of the batch whose file index is strictly greater
than `i` — the spec's "nearest following background". -/
def nextBgPair (readings : List Reading) (i : ℕ) : Option (ℕ × Reading) :=
  readings.enum.find? (fun p => decide (i < p.1) && isBkgR p.2)

/-- The corrected readings the specification describes: one per flux
reading that has a nearest following background, in file order, built by
the subtraction arithmetic. -/
def specCorrs (readings : List Reading) : List CorrMIGReading :=
  readings.enum.filterMap (fun p =>
    match p.2 with
    | .flux f =>
      (nextBgPair readings p.1).bind (fun q =>
        match q.2 with
        | .bkgrnd b => some (subtract_body f b)
        | _ => none)
    | _ => none)

/-- The warnings the specification describes: one per flux reading with
no nearest following background, in file order. -/
def specWarns (readings : List Reading) : List String :=
  readings.enum.filterMap (fun p =>
    match p.2, nextBgPair readings p.1 with
    | .flux _, none => some (skipWarning p.1)
    | _, _ => none)

/-- The flux entries of the tagged batch, as the partition phase
collects them. -/
def fluxProj (p : ℕ × Reading) : Option (ℕ × FluxMIGReading) :=
  match p.2 with
  | .flux f => some (p.1, f)
  | _ => none

/-- The background entries of the tagged batch. -/
def bkgProj (p : ℕ × Reading) : Option (ℕ × BkgrndMIGReading) :=
  match p.2 with
  | .bkgrnd b => some (p.1, b)
  | _ => none

/-- Flux reading used in the concrete pairing scenario (reading number
`n`). -/
def c3Flux (n : ℤ) : FluxMIGReading :=
  ⟨ts2021, al2Cell, [("Temp (°C)", some (.fin 1000))], 10, some (.fin 5),
   some n⟩

/-- Background reading used in the concrete pairing scenario. -/
def c3Bkg (n : ℤ) : BkgrndMIGReading := ⟨ts2021, 2, some (.fin 4), some n⟩

/-- The claim's concrete batch: background readings at file indices 1
and 5 only, a flux reading at file index 2 (filler flux readings at 0, 3
and 4). -/
def c3Readings : List Reading :=
  [.flux (c3Flux 1), .bkgrnd (c3Bkg 2), .flux (c3Flux 3),
   .flux (c3Flux 4), .flux (c3Flux 5), .bkgrnd (c3Bkg 6)]

/-- A store file body for the Al2 channel holding one reading (the
content `write_readings` produces for `zeroParReadingLoaded`). -/
def al2StoreContent : String :=
  "Timestamp, Temp (°C), MIG (nA), Signal-to-noise, Signal-to-background, Num meas between sig and BG\n2021-02-03 11:39:38, , 12.5, 2.5, 5, 2"

/-- Readings used by the merge witness: same channel and timestamp as
`zeroParReading` but a different current. -/
def mergeNewReading : CorrMIGReading :=
  ⟨ts2021, al2Cell, [("Temp (°C)", some (.fin 7))], some (.fin 3),
   none, none, none⟩

/-- A reading of the same channel at a different timestamp. -/
def mergeOtherTsReading : CorrMIGReading :=
  ⟨⟨2022, 5, 6, 7, 8, 9⟩, al2Cell, [("Temp (°C)", some (.fin 8))],
   some (.fin 4), none, none, none⟩

/-! ## Theorems on the claims -/

/-- C1: the source's average validation is one-sided, not the claimed
two-sided relative test.  `underAverageLine` reports average 20.0 while
its trimmed mean is 10.0 — a relative difference of −0.5, far beyond the
tolerance — yet `create_reading_from_XGEN_line` accepts it and returns
the reading; the code's check `(MIG − avg)/avg > 1e-12` is `false` there
while it is `true` for the mirrored deviation above the reported
average. -/
theorem c1_one_sided_average_check :
    create_reading_from_XGEN_line underAverageLine ts2021 =
      .ok (.bkgrnd ⟨ts2021, 10, some .pinf, some 7⟩) ∧
    (flux_line_match underAverageLine).map LineMatch.avgStr =
      some "20.0000" ∧
    ¬ (qabs (((10 : ℚ) - 20) / 20) < 1 / 1000000000000) ∧
    avgMismatch 10 20 = false ∧
    avgMismatch 30 20 = true := by
  refine ⟨by with_unfolding_all decide, by with_unfolding_all decide, by with_unfolding_all decide, by with_unfolding_all decide, by with_unfolding_all decide⟩

/-- C2 (counterexample): the specification's own end-to-end line is
rejected by `flux_line_pattern` — the value grammar `(, \d+\.\d+ ){24}$`
admits no sign (the line contains `-10.0`) and no trailing comma — so
`create_reading_from_XGEN_line` fails on it instead of succeeding. -/
theorem c2_spec_line_rejected :
    flux_line_match specEndToEndLine = none ∧
    create_reading_from_XGEN_line specEndToEndLine ts2021 =
      .error ("Unexpected line format:\n'" ++ specEndToEndLine ++ "'") := by
  constructor
  · with_unfolding_all decide
  · with_unfolding_all decide

/-- C2 (amended): the line parser accepts the grammar with UNSIGNED
decimal values, each followed by a space, and nothing (but an optional
newline) after the 24th group; the spec's end-to-end line with `10.0` in
place of `-10.0` and no trailing comma parses, and the builder returns
the flux reading whose reduced average `12.5` equals the reported
average (the check `avgMismatch` passes). -/
theorem c2_grammar_amended :
    create_reading_from_XGEN_line fixedEndToEndLine ts2021 =
      .ok fixedEndToEndReading ∧
    (parse_flux_line fixedEndToEndLine).toOption.map
      (fun p => p.2.2.2.2) = some fixedEndToEndVals ∧
    npAverage (reduceVals fixedEndToEndVals) = 25 / 2 ∧
    avgMismatch (25 / 2) (25 / 2) = false := by
  refine ⟨by with_unfolding_all decide, by with_unfolding_all decide, by with_unfolding_all decide, by with_unfolding_all decide⟩

/-- C5: the store does not round-trip.  A corrected reading whose
`num_meas_between` is unset — exactly what the corrector produces when a
sequence index is 0 or missing — is written as the literal text `None`,
and loading the file the store itself just wrote fails with the float
conversion error on `'None'` instead of returning the reading. -/
theorem c5_roundtrip_crashes_on_unset_gap :
    print_line unsetGapReading =
      .ok "\n2021-02-03 11:39:38, 1000, 12.5, 2.5, 5, None" ∧
    (write_readings [unsetGapReading] fsEmpty false true).toOption.map
      (fun fs => load_readings ["Al2"] fs) =
      some (.error "could not convert string to float: 'None'") := by
  constructor
  · with_unfolding_all decide
  · with_unfolding_all decide

/-- C7 (counterexample): the reading builder takes the sequence number
from the line's own `Reading` token.  Two lines identical except for
that token produce readings with numbers 5 and 37 respectively — there
is no caller-supplied index overriding the embedded counter
(`create_reading_from_XGEN_line` receives only the line and a
timestamp). -/
theorem c7_seq_from_line_token :
    (create_reading_from_XGEN_line seqTokenLineA ts2021).toOption.bind
      readingNumOf = some 5 ∧
    (create_reading_from_XGEN_line seqTokenLineB ts2021).toOption.bind
      readingNumOf = some 37 := by
  constructor
  · with_unfolding_all decide
  · with_unfolding_all decide

/-- C8: a sequence index equal to 0 is dropped by the truthiness test
`if background.reading_num and self.reading_num:`.  For the flux reading
with index 0 and its background with index 5 (equal timestamps), the
corrected reading's `num_meas_between` is `None`, not the claimed
`5 − 0 = 5`; with nonzero indices 3 and 5 the difference 2 is stored. -/
theorem c8_zero_sequence_index_gap_dropped :
    (zeroIdxFlux.subtract_background fiveIdxBkgrnd).toOption.map
      (fun c => c.num_meas_between) = some none ∧
    (threeIdxFlux.subtract_background fiveIdxBkgrnd).toOption.map
      (fun c => c.num_meas_between) = some (some (.fin 2)) := by
  constructor
  · with_unfolding_all decide
  · with_unfolding_all decide

/-- C9 (counterexample): on a line whose 20-sample reduced set has zero
standard deviation the builder still performs the division
`MIG_current/np.std(...)`: the signal-to-noise comes out as `+inf`
(IEEE division of a positive value by zero), not as null. -/
theorem c9_zero_noise_snr_is_inf :
    create_reading_from_XGEN_line constSamplesLine ts2021 =
      .ok (.bkgrnd ⟨ts2021, 25 / 2, some .pinf, some 3⟩) ∧
    (parse_flux_line constSamplesLine).toOption.map
      (fun p => p.2.2.2.2) = some (List.replicate 24 (25 / 2)) ∧
    npStd (reduceVals (List.replicate 24 (25 / 2))) = 0 ∧
    some PyFloat.pinf ≠ (none : Option PyFloat) := by
  refine ⟨by with_unfolding_all decide, by with_unfolding_all decide, by with_unfolding_all decide, by with_unfolding_all decide⟩

/-- C10: the store's line serializer renders a parameter whose value is
`0.0` identically to an unset one (the empty field), and `read_float`
maps the empty field back to `None`: saving `zeroParReading` and loading
it back yields the reading with its zero-valued temperature parameter
turned into null. -/
theorem c10_zero_param_saved_as_null :
    parField (some (.fin 0)) = parField none ∧
    parField (some (.fin 0)) = "" ∧
    read_float "" = .ok none ∧
    (write_readings [zeroParReading] fsEmpty false true).toOption.map
      (fun fs => load_readings ["Al2"] fs) =
      some (.ok [zeroParReadingLoaded]) ∧
    dlookup "Temp (°C)" zeroParReading.cell_par_vals =
      some (some (.fin 0)) ∧
    dlookup "Temp (°C)" zeroParReadingLoaded.cell_par_vals = some none := by
  refine ⟨by with_unfolding_all decide, by with_unfolding_all decide, by with_unfolding_all decide, by with_unfolding_all decide, by with_unfolding_all decide, by with_unfolding_all decide⟩

/-! ### Helper lemmas -/

/-- `Except` bind on a success. -/
theorem except_bind_ok {ε α β : Type} (a : α) (f : α → Except ε β) :
    (Except.ok a >>= f) = f a := rfl

/-- `Except` bind on a failure. -/
theorem except_bind_error {ε α β : Type} (e : ε) (f : α → Except ε β) :
    ((Except.error e : Except ε α) >>= f) = Except.error e := rfl

/-- A successful `parse_flux_line` is a successful field extraction with
some reported average. -/
theorem parse_ok_extract (line : String) (p : String × ℕ × ℚ × ℕ × List ℚ)
    (hp : parse_flux_line line = .ok p) :
    ∃ avg, extract_line_fields line =
      .ok (p.1, p.2.1, p.2.2.1, avg, p.2.2.2.1, p.2.2.2.2) := by
  unfold parse_flux_line at hp
  cases he : extract_line_fields line with
  | error e =>
    rw [he, except_bind_error] at hp
    exact Except.noConfusion hp
  | ok q =>
    obtain ⟨mt, port, temp, avg, num, vals⟩ := q
    rw [he, except_bind_ok] at hp
    simp only [] at hp
    have hq := Except.ok.inj hp
    subst hq
    exact ⟨avg, rfl⟩

/-- What a successful `create_reading_from_XGEN_line` guarantees about
the created reading, given the extracted fields: the stored reading
number is the line's own counter token, and the signal-to-noise is the
(always-performed) division of the reduced average by the reduced
standard deviation. -/
theorem create_ok_shape (line : String) (ts : PyDateTime) (r : Reading)
    (mt : String) (port : ℕ) (temp avg : ℚ) (num : ℕ) (vals : List ℚ)
    (he : extract_line_fields line = .ok (mt, port, temp, avg, num, vals))
    (hc : create_reading_from_XGEN_line line ts = .ok r) :
    readingNumOf r = some (num : ℤ) ∧
    readingSnr r = some (pyDivQ (npAverage (reduceVals vals))
      (npStd (reduceVals vals))) := by
  unfold create_reading_from_XGEN_line at hc
  rw [he, except_bind_ok] at hc
  simp only [] at hc
  cases hcell : cells_find_by_port port with
  | error e =>
    rw [hcell, except_bind_error] at hc
    exact Except.noConfusion hc
  | ok cell =>
    rw [hcell, except_bind_ok] at hc
    try simp only [] at hc
    split at hc
    · exact Except.noConfusion hc
    · split at hc
      · have hr := Except.ok.inj hc
        subst hr
        exact ⟨rfl, rfl⟩
      · split at hc
        · have hr := Except.ok.inj hc
          subst hr
          exact ⟨rfl, rfl⟩
        · exact Except.noConfusion hc

/-- C7 (amended): for every line the builder accepts, the reading's
stored sequence number equals the `<seq>` (`Reading`) token of the
parsed line — the builder takes it from the line, with no caller-side
override. -/
theorem c7_reading_num_from_token (line : String) (ts : PyDateTime)
    (r : Reading) (p : String × ℕ × ℚ × ℕ × List ℚ)
    (hp : parse_flux_line line = .ok p)
    (hc : create_reading_from_XGEN_line line ts = .ok r) :
    readingNumOf r = some (p.2.2.2.1 : ℤ) := by
  obtain ⟨avg, he⟩ := parse_ok_extract line p hp
  exact (create_ok_shape line ts r p.1 p.2.1 p.2.2.1 avg p.2.2.2.1
    p.2.2.2.2 he hc).1

/-- Witness for C7 (amended) at `seqTokenLineB` (`Reading` token 37). -/
theorem c7_reading_num_from_token_witness :
    readingNumOf (.bkgrnd ⟨ts2021, 25 / 2, some .pinf, some 37⟩) =
      some ((("Background", 1, (950 : ℚ), 37,
        List.replicate 24 ((25 : ℚ) / 2)) :
          String × ℕ × ℚ × ℕ × List ℚ).2.2.2.1 : ℤ) :=
  c7_reading_num_from_token seqTokenLineB ts2021 _ _
    (by with_unfolding_all decide) (by with_unfolding_all decide)

/-- C9 (amended): for every line the builder accepts, the stored
signal-to-noise is exactly the division of the reduced average by the
reduced standard deviation — performed even with a zero denominator, in
which case it is `+inf` for a positive reduced average, never null. -/
theorem c9_snr_division_always_performed (line : String) (ts : PyDateTime)
    (r : Reading) (p : String × ℕ × ℚ × ℕ × List ℚ)
    (hp : parse_flux_line line = .ok p)
    (hc : create_reading_from_XGEN_line line ts = .ok r) :
    readingSnr r = some (pyDivQ (npAverage (reduceVals p.2.2.2.2))
      (npStd (reduceVals p.2.2.2.2))) ∧
    (npStd (reduceVals p.2.2.2.2) = 0 →
      0 < npAverage (reduceVals p.2.2.2.2) →
      readingSnr r = some PyFloat.pinf) := by
  obtain ⟨avg, he⟩ := parse_ok_extract line p hp
  have h := (create_ok_shape line ts r p.1 p.2.1 p.2.2.1 avg p.2.2.2.1
    p.2.2.2.2 he hc).2
  refine ⟨h, fun h0 hpos => ?_⟩
  rw [h, pyDivQ, h0]
  simp [hpos]

/-- Witness for C9 (amended) at `constSamplesLine` (all samples equal,
zero reduced standard deviation). -/
theorem c9_snr_division_always_performed_witness :
    (readingSnr (.bkgrnd ⟨ts2021, 25 / 2, some .pinf, some 3⟩) =
      some (pyDivQ
        (npAverage (reduceVals (List.replicate 24 ((25 : ℚ) / 2))))
        (npStd (reduceVals (List.replicate 24 ((25 : ℚ) / 2)))))) ∧
    (npStd (reduceVals (List.replicate 24 ((25 : ℚ) / 2))) = 0 ∧
      0 < npAverage (reduceVals (List.replicate 24 ((25 : ℚ) / 2)))) ∧
    readingSnr (.bkgrnd ⟨ts2021, 25 / 2, some .pinf, some 3⟩) =
      some PyFloat.pinf := by
  have h := c9_snr_division_always_performed constSamplesLine ts2021
    (.bkgrnd ⟨ts2021, 25 / 2, some .pinf, some 3⟩)
    ("Background", 1, 950, 3, List.replicate 24 ((25 : ℚ) / 2))
    (by with_unfolding_all decide) (by with_unfolding_all decide)
  have h0 : npStd (reduceVals (List.replicate 24 ((25 : ℚ) / 2))) = 0 := by
    with_unfolding_all decide
  have hpos : 0 < npAverage (reduceVals (List.replicate 24 ((25 : ℚ) / 2))) := by
    with_unfolding_all decide
  exact ⟨h.1, ⟨h0, hpos⟩, h.2 h0 hpos⟩

/-- The accumulation loop of `load_readings` discards everything when a
later requested file is missing, provided the names resolve and the
present files parse. -/
theorem loadGo_missing (cellnames : List String) (fs : FileSys) :
    ∀ acc : List CorrMIGReading,
    (∀ c ∈ cellnames, ∃ cell, cells_find_by_name c = .ok cell) →
    (∀ c cell content, c ∈ cellnames → cells_find_by_name c = .ok cell →
      dlookup (c ++ ".txt") fs = some content →
      ∃ rds, parse_store_file c cell content = .ok rds) →
    (∃ c ∈ cellnames, dlookup (c ++ ".txt") fs = none) →
    loadGo cellnames fs acc = .ok [] := by
  induction cellnames with
  | nil =>
    intro acc _ _ hmiss
    obtain ⟨c, hc, _⟩ := hmiss
    exact absurd hc (List.not_mem_nil c)
  | cons c rest ih =>
    intro acc hreg hparse hmiss
    obtain ⟨cell, hcell⟩ := hreg c (List.mem_cons_self c rest)
    unfold loadGo
    rw [hcell, except_bind_ok]
    split
    · rfl
    · next content hfile =>
      obtain ⟨rds, hp⟩ :=
        hparse c cell content (List.mem_cons_self c rest) hcell hfile
      rw [hp, except_bind_ok]
      apply ih
      · exact fun c' hc' => hreg c' (List.mem_cons_of_mem c hc')
      · exact fun c' cell' content' hc' h1 h2 =>
          hparse c' cell' content' (List.mem_cons_of_mem c hc') h1 h2
      · obtain ⟨c', hc', hm⟩ := hmiss
        rcases List.mem_cons.mp hc' with h | h
        · subst h
          rw [hfile] at hm
          exact Option.noConfusion hm
        · exact ⟨c', h, hm⟩

/-- C6: if the store file of any one requested channel is absent, `load`
returns the empty list for the whole call — also dropping the readings
of requested channels whose files exist and parse (their names resolving
in the registry and their contents being well-formed). -/
theorem c6_missing_file_empties_whole_load (cellnames : List String)
    (fs : FileSys)
    (hreg : ∀ c ∈ cellnames, ∃ cell, cells_find_by_name c = .ok cell)
    (hparse : ∀ c cell content, c ∈ cellnames →
      cells_find_by_name c = .ok cell →
      dlookup (c ++ ".txt") fs = some content →
      ∃ rds, parse_store_file c cell content = .ok rds)
    (hmiss : ∃ c ∈ cellnames, dlookup (c ++ ".txt") fs = none) :
    load_readings cellnames fs = .ok [] :=
  loadGo_missing cellnames fs [] hreg hparse hmiss

/-- Witness for C6: the Al2 store file exists, parses, and on its own
loads one reading, yet requesting Al2 together with the absent As file
returns nothing at all. -/
theorem c6_missing_file_empties_whole_load_witness :
    load_readings ["Al2"] [("Al2.txt", al2StoreContent)] =
      .ok [zeroParReadingLoaded] ∧
    load_readings ["Al2", "As"] [("Al2.txt", al2StoreContent)] = .ok [] := by
  constructor
  · with_unfolding_all decide
  · refine c6_missing_file_empties_whole_load _ _ ?_ ?_ ?_
    · intro c hc
      rcases List.mem_cons.mp hc with h | h
      · subst h; exact ⟨al2Cell, by with_unfolding_all decide⟩
      · rcases List.mem_cons.mp h with h' | h'
        · subst h'
          exact ⟨mkAsCell "As" 1 (some 950), by with_unfolding_all decide⟩
        · exact absurd h' (List.not_mem_nil c)
    · intro c cell content hc hcell hfile
      rcases List.mem_cons.mp hc with h | h
      · subst h
        have hcell' : cells_find_by_name "Al2" = .ok al2Cell := by
          with_unfolding_all decide
        rw [hcell'] at hcell
        have := Except.ok.inj hcell
        subst this
        have hfl : dlookup ("Al2" ++ ".txt")
            ([("Al2.txt", al2StoreContent)] : FileSys) =
            some al2StoreContent := by with_unfolding_all decide
        rw [hfl] at hfile
        have := Option.some.inj hfile
        subst this
        exact ⟨[zeroParReadingLoaded], by with_unfolding_all decide⟩
      · rcases List.mem_cons.mp h with h' | h'
        · subst h'
          have : dlookup ("As" ++ ".txt")
              ([("Al2.txt", al2StoreContent)] : FileSys) = none := by
            with_unfolding_all decide
          rw [this] at hfile
          exact Option.noConfusion hfile
        · exact absurd h' (List.not_mem_nil c)
    · exact ⟨"As", by simp, by with_unfolding_all decide⟩

/-! ### Dictionary lemmas for the merge analysis -/

/-- Lookup after appending a single binding at the end. -/
theorem dlookup_append_single {K V : Type} [DecidableEq K]
    (l : List (K × V)) (k k' : K) (v : V) :
    dlookup k' (l ++ [(k, v)]) =
      match dlookup k' l with
      | some w => some w
      | none => if k' = k then some v else none := by
  induction l with
  | nil => rfl
  | cons p rest ih =>
    obtain ⟨k₀, v₀⟩ := p
    by_cases h : k' = k₀
    · simp [dlookup, h]
    · simp [dlookup, h, ih]

/-- Lookup in the pointwise-overwritten list (the in-place branch of
`dictSet`). -/
theorem dlookup_overwrite {K V : Type} [DecidableEq K]
    (l : List (K × V)) (k k' : K) (v : V) :
    dlookup k' (l.map (fun p => if p.1 = k then (k, v) else p)) =
      if k' = k then (if (dlookup k l).isSome then some v else none)
      else dlookup k' l := by
  induction l with
  | nil => by_cases h : k' = k <;> simp [dlookup, h]
  | cons p rest ih =>
    obtain ⟨k₀, v₀⟩ := p
    have hstep : dlookup k' (((k₀, v₀) :: rest).map
        (fun p => if p.1 = k then (k, v) else p)) =
        dlookup k' ((if k₀ = k then (k, v) else (k₀, v₀)) ::
          rest.map (fun p => if p.1 = k then (k, v) else p)) := rfl
    rw [hstep]
    by_cases h₀ : k₀ = k
    · rw [if_pos h₀]
      subst h₀
      by_cases h' : k' = k₀
      · subst h'
        simp [dlookup]
      · simp [dlookup, h', ih]
    · rw [if_neg h₀]
      by_cases h' : k' = k₀
      · subst h'
        have hk : ¬(k' = k) := h₀
        simp [dlookup, hk]
      · have hk : ¬(k = k₀) := fun hh => h₀ hh.symm
        simp [dlookup, h₀, h', ih, hk]

/-- Lookup through a Python dictionary assignment. -/
theorem dlookup_dictSet {K V : Type} [DecidableEq K]
    (l : List (K × V)) (k k' : K) (v : V) :
    dlookup k' (dictSet l k v) = if k' = k then some v else dlookup k' l := by
  unfold dictSet
  cases h : dlookup k l with
  | none =>
    show dlookup k' (l ++ [(k, v)]) = _
    rw [dlookup_append_single]
    by_cases h' : k' = k
    · subst h'
      rw [h]
    · cases h2 : dlookup k' l <;> simp [h', h2]
  | some w =>
    show dlookup k' (l.map (fun p => if p.1 = k then (k, v) else p)) = _
    rw [dlookup_overwrite, h]
    simp

/-- Overwriting in place does not change the key list. -/
theorem map_fst_overwrite {K V : Type} [DecidableEq K]
    (l : List (K × V)) (k : K) (v : V) :
    (l.map (fun p => if p.1 = k then (k, v) else p)).map Prod.fst =
      l.map Prod.fst := by
  induction l with
  | nil => rfl
  | cons p rest ih =>
    by_cases h : p.1 = k <;> simp [h, ih]

/-- The key list after a dictionary assignment. -/
theorem dictSet_keys {K V : Type} [DecidableEq K]
    (l : List (K × V)) (k : K) (v : V) :
    (dictSet l k v).map Prod.fst =
      if (dlookup k l).isSome then l.map Prod.fst
      else l.map Prod.fst ++ [k] := by
  unfold dictSet
  cases h : dlookup k l with
  | none => simp
  | some w =>
    show ((l.map (fun p => if p.1 = k then (k, v) else p)).map Prod.fst) = _
    rw [map_fst_overwrite]
    simp

/-- A key is absent exactly when lookup fails. -/
theorem dlookup_eq_none_iff {K V : Type} [DecidableEq K]
    (k : K) (l : List (K × V)) :
    dlookup k l = none ↔ k ∉ l.map Prod.fst := by
  induction l with
  | nil => simp [dlookup]
  | cons p rest ih =>
    obtain ⟨k₀, v₀⟩ := p
    by_cases h : k = k₀ <;> simp [dlookup, h, ih]

/-- Grouping preserves key uniqueness. -/
theorem dictAppend_keys_nodup {K V : Type} [DecidableEq K]
    (l : List (K × List V)) (k : K) (v : V)
    (h : (l.map Prod.fst).Nodup) :
    ((dictAppend l k v).map Prod.fst).Nodup := by
  unfold dictAppend
  rw [dictSet_keys]
  split
  · exact h
  · next hs =>
    have hn : dlookup k l = none := by
      cases h2 : dlookup k l
      · rfl
      · rw [h2] at hs; exact absurd rfl hs
    have hkn : k ∉ l.map Prod.fst := (dlookup_eq_none_iff k l).mp hn
    simp [List.nodup_append, h, hkn]

/-- The grouping fold preserves key uniqueness. -/
theorem foldl_dictAppend_keys_nodup {K V : Type} [DecidableEq K]
    (key : V → K) (rs : List V) :
    ∀ d : List (K × List V), (d.map Prod.fst).Nodup →
      ((rs.foldl (fun d r => dictAppend d (key r) r) d).map Prod.fst).Nodup := by
  induction rs with
  | nil => exact fun d h => h
  | cons r rest ih =>
    exact fun d h => ih _ (dictAppend_keys_nodup _ _ _ h)

/-- The channel keys of a partition are unique. -/
theorem split_by_cellname_keys_nodup (rs : List CorrMIGReading) :
    ((split_readings_by_cellname rs).map Prod.fst).Nodup := by
  unfold split_readings_by_cellname
  exact foldl_dictAppend_keys_nodup (fun r => r.cell.name) rs [] (by simp)

/-- The timestamp keys within one channel group are unique. -/
theorem split_by_timestamp_keys_nodup (rs : List CorrMIGReading) :
    ((split_readings_by_timestamp rs).map Prod.fst).Nodup := by
  unfold split_readings_by_timestamp
  exact foldl_dictAppend_keys_nodup (fun r => r.timestamp) rs [] (by simp)

/-- Re-keying the values leaves the key list unchanged. -/
theorem map_fst_mapval {K A B : Type} (f : A → B) (l : List (K × A)) :
    (l.map (fun p => (p.1, f p.2))).map Prod.fst = l.map Prod.fst := by
  induction l with
  | nil => rfl
  | cons p rest ih => simp [ih]

/-- Lookup through a value-mapped dictionary. -/
theorem dlookup_mapval {K A B : Type} [DecidableEq K] (f : A → B) (k : K)
    (l : List (K × A)) :
    dlookup k (l.map (fun p => (p.1, f p.2))) = (dlookup k l).map f := by
  induction l with
  | nil => rfl
  | cons p rest ih =>
    obtain ⟨k₀, a⟩ := p
    by_cases h : k = k₀ <;> simp [dlookup, h, ih]

/-- The channel keys of `split_readings` are unique. -/
theorem split_readings_keys_nodup (rs : List CorrMIGReading) :
    ((split_readings rs).map Prod.fst).Nodup := by
  unfold split_readings
  rw [map_fst_mapval]
  exact split_by_cellname_keys_nodup rs

/-- Every inner dictionary of `split_readings` has unique timestamp
keys. -/
theorem split_readings_inner_nodup (rs : List CorrMIGReading) (c : String)
    (inner : List (PyDateTime × List CorrMIGReading))
    (h : dlookup c (split_readings rs) = some inner) :
    (inner.map Prod.fst).Nodup := by
  unfold split_readings at h
  rw [dlookup_mapval] at h
  cases hg : dlookup c (split_readings_by_cellname rs) with
  | none => rw [hg] at h; exact Option.noConfusion h
  | some grp =>
    rw [hg] at h
    have h2 := Option.some.inj h
    subst h2
    exact split_by_timestamp_keys_nodup grp

/-- The inner merge loop, characterised per timestamp: a timestamp group
from new data is adopted exactly when the timestamp is absent from the
accumulated (old) data or `overwrite_old` is set; otherwise the old
group is kept. -/
theorem mergeCellGo_lookup (ow : Bool) (t : PyDateTime) :
    ∀ (newI acc : List (PyDateTime × List CorrMIGReading)),
    (newI.map Prod.fst).Nodup →
    dlookup t (mergeCellGo ow newI acc) =
      match dlookup t newI with
      | some lst =>
        if (dlookup t acc).isSome && !ow then dlookup t acc else some lst
      | none => dlookup t acc := by
  intro newI
  induction newI with
  | nil => intro acc _; rfl
  | cons p rest ih =>
    intro acc hnd
    obtain ⟨t₀, l₀⟩ := p
    simp only [List.map_cons] at hnd
    have ht₀ : t₀ ∉ rest.map Prod.fst := (List.nodup_cons.mp hnd).1
    have hnd' : (rest.map Prod.fst).Nodup := (List.nodup_cons.mp hnd).2
    unfold mergeCellGo
    rw [ih _ hnd']
    by_cases ht : t = t₀
    · subst ht
      have hre : dlookup t rest = none := (dlookup_eq_none_iff t rest).mpr ht₀
      cases hacc : dlookup t acc <;> cases ow <;>
        simp [hre, hacc, dlookup, dlookup_dictSet]
    · have hacc' : ∀ b : Bool,
          dlookup t (if (dlookup t₀ acc).isNone || b then dictSet acc t₀ l₀
            else acc) = dlookup t acc := by
        intro b
        split
        · rw [dlookup_dictSet]; simp [ht]
        · rfl
      rw [hacc' ow]
      simp [dlookup, ht]

/-- The outer merge loop, characterised per channel: a channel absent
from the accumulated (old) partition is adopted wholesale from new data;
a channel present in both has its timestamp groups merged by
`mergeCellGo`. -/
theorem mergeSplitGo_lookup (ow : Bool) (c : String) :
    ∀ (newS acc : Split), (newS.map Prod.fst).Nodup →
    dlookup c (mergeSplitGo ow newS acc) =
      match dlookup c newS with
      | none => dlookup c acc
      | some inner =>
        match dlookup c acc with
        | none => some inner
        | some accI => some (mergeCellGo ow inner accI) := by
  intro newS
  induction newS with
  | nil => intro acc _; rfl
  | cons p rest ih =>
    intro acc hnd
    obtain ⟨c₀, in₀⟩ := p
    simp only [List.map_cons] at hnd
    have hc₀ : c₀ ∉ rest.map Prod.fst := (List.nodup_cons.mp hnd).1
    have hnd' : (rest.map Prod.fst).Nodup := (List.nodup_cons.mp hnd).2
    unfold mergeSplitGo
    rw [ih _ hnd']
    by_cases hc : c = c₀
    · subst hc
      have hre : dlookup c rest = none := (dlookup_eq_none_iff c rest).mpr hc₀
      cases hacc : dlookup c acc <;>
        simp [hre, hacc, dlookup, dlookup_dictSet, dlookup_append_single]
    · have hacc' : dlookup c
          (match dlookup c₀ acc with
           | none => acc ++ [(c₀, in₀)]
           | some oldI => dictSet acc c₀ (mergeCellGo ow in₀ oldI)) =
          dlookup c acc := by
        cases hacc : dlookup c₀ acc with
        | none =>
          show dlookup c (acc ++ [(c₀, in₀)]) = dlookup c acc
          rw [dlookup_append_single]
          cases h2 : dlookup c acc <;> simp [hc, h2]
        | some oldI =>
          show dlookup c (dictSet acc c₀ (mergeCellGo ow in₀ oldI)) =
            dlookup c acc
          rw [dlookup_dictSet]
          simp [hc]
      rw [hacc']
      simp [dlookup, hc]

/-- C4: the merge of two reading collections, observed at the partition
level.  First conjunct — the full characterisation: the merged partition
starts from old data's; a channel absent from old is adopted wholesale
from new; for channels in both, a timestamp group from new is adopted
exactly when that timestamp is absent from old or overwrite is set, and
adoption replaces the timestamp's entire list.  Second and third
conjuncts — for a (channel, timestamp) key held by at most one side the
merge is the lossless union, regardless of the flag.  Fourth conjunct —
for a key held by both sides, overwrite=false keeps old's entire list
and overwrite=true replaces it with new's entire list.  Fifth conjunct —
`merge_readings` is exactly the flattening of this merged partition. -/
theorem c4_merge_characterization (new_readings old_readings :
    List CorrMIGReading) (ow : Bool) (c : String) (t : PyDateTime) :
    (lookup2 (merge_split (split_readings new_readings)
        (split_readings old_readings) ow) c t =
      match dlookup c (split_readings old_readings) with
      | none => lookup2 (split_readings new_readings) c t
      | some oldInner =>
        match lookup2 (split_readings new_readings) c t with
        | none => dlookup t oldInner
        | some lst =>
          if (dlookup t oldInner).isSome && !ow then dlookup t oldInner
          else some lst) ∧
    (lookup2 (split_readings new_readings) c t = none →
      lookup2 (merge_split (split_readings new_readings)
          (split_readings old_readings) ow) c t =
        lookup2 (split_readings old_readings) c t) ∧
    (lookup2 (split_readings old_readings) c t = none →
      lookup2 (merge_split (split_readings new_readings)
          (split_readings old_readings) ow) c t =
        lookup2 (split_readings new_readings) c t) ∧
    (∀ ln lo, lookup2 (split_readings new_readings) c t = some ln →
      lookup2 (split_readings old_readings) c t = some lo →
      lookup2 (merge_split (split_readings new_readings)
          (split_readings old_readings) ow) c t =
        some (if ow then ln else lo)) ∧
    merge_readings new_readings old_readings ow =
      unsplit_readings (merge_split (split_readings new_readings)
        (split_readings old_readings) ow) := by
  have hmain : lookup2 (merge_split (split_readings new_readings)
      (split_readings old_readings) ow) c t =
      match dlookup c (split_readings old_readings) with
      | none => lookup2 (split_readings new_readings) c t
      | some oldInner =>
        match lookup2 (split_readings new_readings) c t with
        | none => dlookup t oldInner
        | some lst =>
          if (dlookup t oldInner).isSome && !ow then dlookup t oldInner
          else some lst := by
    unfold lookup2 merge_split
    rw [mergeSplitGo_lookup ow c _ _ (split_readings_keys_nodup new_readings)]
    cases hnew : dlookup c (split_readings new_readings) with
    | none =>
      cases hold : dlookup c (split_readings old_readings) with
      | none => rfl
      | some oldI => rfl
    | some newI =>
      cases hold : dlookup c (split_readings old_readings) with
      | none => rfl
      | some oldI =>
        show dlookup t (mergeCellGo ow newI oldI) = _
        rw [mergeCellGo_lookup ow t newI oldI
          (split_readings_inner_nodup new_readings c newI hnew)]
        have hbind : (some newI).bind (dlookup t) = dlookup t newI := rfl
        rw [hbind]
        cases h2 : dlookup t newI <;> rfl
  refine ⟨hmain, ?_, ?_, ?_, rfl⟩
  · intro hn
    rw [hmain]
    unfold lookup2 at hn ⊢
    cases hold : dlookup c (split_readings old_readings) with
    | none =>
      rw [hn]
      rfl
    | some oldI =>
      rw [hn]
      rfl
  · intro ho
    rw [hmain]
    unfold lookup2 at ho ⊢
    cases hold : dlookup c (split_readings old_readings) with
    | none => rfl
    | some oldI =>
      rw [hold] at ho
      have ho' : dlookup t oldI = none := ho
      show (match (dlookup c (split_readings new_readings)).bind (dlookup t) with
        | none => dlookup t oldI
        | some lst =>
          if (dlookup t oldI).isSome && !ow then dlookup t oldI
          else some lst) =
        (dlookup c (split_readings new_readings)).bind (dlookup t)
      rw [ho']
      cases hnt : (dlookup c (split_readings new_readings)).bind (dlookup t) with
      | none => rfl
      | some lst => simp
  · intro ln lo hn ho
    rw [hmain]
    unfold lookup2 at hn ho ⊢
    cases hold : dlookup c (split_readings old_readings) with
    | none => rw [hold] at ho; exact Option.noConfusion ho
    | some oldI =>
      rw [hold] at ho
      have ho' : dlookup t oldI = some lo := ho
      show (match (dlookup c (split_readings new_readings)).bind (dlookup t) with
        | none => dlookup t oldI
        | some lst =>
          if (dlookup t oldI).isSome && !ow then dlookup t oldI
          else some lst) =
        some (if ow then ln else lo)
      rw [hn, ho']
      cases ow <;> simp

/-- Witness for C4: an overlapping (Al2, 2021-02-03 11:39:38) key is
kept from old data with overwrite off and replaced entirely by new data
with overwrite on; a key held only by old data survives a merge with new
data at another timestamp. -/
theorem c4_merge_characterization_witness :
    lookup2 (merge_split (split_readings [mergeNewReading])
        (split_readings [zeroParReading]) false) "Al2" ts2021 =
      some [zeroParReading] ∧
    lookup2 (merge_split (split_readings [mergeNewReading])
        (split_readings [zeroParReading]) true) "Al2" ts2021 =
      some [mergeNewReading] ∧
    lookup2 (merge_split (split_readings [mergeOtherTsReading])
        (split_readings [zeroParReading]) false) "Al2" ts2021 =
      some [zeroParReading] := by
  have h1 := (c4_merge_characterization [mergeNewReading] [zeroParReading]
    false "Al2" ts2021).2.2.2.1 [mergeNewReading] [zeroParReading]
    (by with_unfolding_all decide) (by with_unfolding_all decide)
  have h2 := (c4_merge_characterization [mergeNewReading] [zeroParReading]
    true "Al2" ts2021).2.2.2.1 [mergeNewReading] [zeroParReading]
    (by with_unfolding_all decide) (by with_unfolding_all decide)
  have h3 := (c4_merge_characterization [mergeOtherTsReading]
    [zeroParReading] false "Al2" ts2021).2.1
    (by with_unfolding_all decide)
  refine ⟨by simpa using h1, by simpa using h2, ?_⟩
  rw [h3]
  with_unfolding_all decide

/-! ### Lemmas for the corrector pairing -/

/-- Fusing two `filterMap`s. -/
theorem filterMap_fuse {α β γ : Type} (f : α → Option β) (g : β → Option γ) :
    ∀ l : List α, (l.filterMap f).filterMap g =
      l.filterMap (fun x => (f x).bind g) := by
  intro l
  induction l with
  | nil => rfl
  | cons a rest ih =>
    cases hf : f a with
    | none => simp [List.filterMap_cons, hf, ih]
    | some b =>
      cases hg : g b with
      | none => simp [List.filterMap_cons, hf, hg, ih]
      | some c => simp [List.filterMap_cons, hf, hg, ih]

/-- An element of an enumerated list is an element of the list. -/
theorem snd_mem_of_mem_enumFrom {α : Type} :
    ∀ (l : List α) (n : ℕ) (p : ℕ × α), p ∈ List.enumFrom n l → p.2 ∈ l := by
  intro l
  induction l with
  | nil => intro n p h; simp [List.enumFrom] at h
  | cons a rest ih =>
    intro n p h
    simp only [List.enumFrom] at h
    rcases List.mem_cons.mp h with h' | h'
    · subst h'
      exact List.mem_cons_self _ _
    · exact List.mem_cons_of_mem _ (ih (n + 1) p h')

/-- What a successful flux projection says about the entry. -/
theorem fluxProj_some (a : ℕ × Reading) (p : ℕ × FluxMIGReading)
    (h : fluxProj a = some p) : a.2 = .flux p.2 := by
  cases ha : a.2 with
  | flux f =>
    have hred : fluxProj a = some (a.1, f) := by unfold fluxProj; rw [ha]
    rw [hred] at h
    have h2 := Option.some.inj h
    exact congrArg Reading.flux (congrArg Prod.snd h2)
  | bkgrnd b =>
    have hred : fluxProj a = none := by unfold fluxProj; rw [ha]
    rw [hred] at h
    exact Option.noConfusion h
  | corr c =>
    have hred : fluxProj a = none := by unfold fluxProj; rw [ha]
    rw [hred] at h
    exact Option.noConfusion h

/-- What a successful background projection says about the entry. -/
theorem bkgProj_some (a : ℕ × Reading) (p : ℕ × BkgrndMIGReading)
    (h : bkgProj a = some p) : a.2 = .bkgrnd p.2 := by
  cases ha : a.2 with
  | bkgrnd b =>
    have hred : bkgProj a = some (a.1, b) := by unfold bkgProj; rw [ha]
    rw [hred] at h
    have h2 := Option.some.inj h
    exact congrArg Reading.bkgrnd (congrArg Prod.snd h2)
  | flux f =>
    have hred : bkgProj a = none := by unfold bkgProj; rw [ha]
    rw [hred] at h
    exact Option.noConfusion h
  | corr c =>
    have hred : bkgProj a = none := by unfold bkgProj; rw [ha]
    rw [hred] at h
    exact Option.noConfusion h

/-- The partition phase on a batch without corrected readings: the flux
and background lists are the two tagged sublists, in file order. -/
theorem partitionRs_eq :
    ∀ tagged : List (ℕ × Reading),
    (∀ p ∈ tagged, isFluxR p.2 = true ∨ isBkgR p.2 = true) →
    partitionRs tagged =
      .ok (tagged.filterMap fluxProj, tagged.filterMap bkgProj) := by
  intro tagged
  induction tagged with
  | nil => intro _; rfl
  | cons p rest ih =>
    intro h
    have hrest := fun q hq => h q (List.mem_cons_of_mem _ hq)
    unfold partitionRs
    rw [ih hrest, except_bind_ok]
    cases hp2 : p.2 with
    | flux f => simp [List.filterMap_cons, fluxProj, bkgProj, hp2]
    | bkgrnd b => simp [List.filterMap_cons, fluxProj, bkgProj, hp2]
    | corr c =>
      have hh := h p (List.mem_cons_self _ _)
      rw [hp2] at hh
      simp [isFluxR, isBkgR] at hh

/-- `find?` over the background sublist is `find?` over the whole tagged
batch with the background test folded into the predicate. -/
theorem find_bkg_eq (i : ℕ) :
    ∀ l : List (ℕ × Reading),
    (l.filterMap bkgProj).find? (fun q => decide (i < q.1)) =
      (l.find? (fun p => decide (i < p.1) && isBkgR p.2)).bind bkgProj := by
  intro l
  induction l with
  | nil => rfl
  | cons p rest ih =>
    cases hp2 : p.2 with
    | bkgrnd b =>
      have hproj : bkgProj p = some (p.1, b) := by unfold bkgProj; rw [hp2]
      by_cases hij : i < p.1
      · simp [List.filterMap_cons, hproj, List.find?_cons, isBkgR, hp2, hij,
          hproj]
      · simp [List.filterMap_cons, hproj, List.find?_cons, isBkgR, hp2, hij,
          ih]
    | flux f =>
      have hproj : bkgProj p = none := by unfold bkgProj; rw [hp2]
      simp [List.filterMap_cons, hproj, List.find?_cons, isBkgR, hp2, ih]
    | corr c =>
      have hproj : bkgProj p = none := by unfold bkgProj; rw [hp2]
      simp [List.filterMap_cons, hproj, List.find?_cons, isBkgR, hp2, ih]

/-- The subtraction succeeds (with the arithmetic body) when the
timestamps agree. -/
theorem subtract_background_ok (f : FluxMIGReading) (b : BkgrndMIGReading)
    (h : f.timestamp = b.timestamp) :
    f.subtract_background b = .ok (subtract_body f b) := by
  unfold FluxMIGReading.subtract_background
  simp [h]

/-- The pairing loop on timestamp-uniform inputs: warnings for the flux
entries with no strictly-later background, corrected readings for the
rest, both in file order. -/
theorem pairGo_eq (t₀ : PyDateTime) (bgs : List (ℕ × BkgrndMIGReading))
    (hbg : ∀ p ∈ bgs, p.2.timestamp = t₀) :
    ∀ fluxes : List (ℕ × FluxMIGReading),
    (∀ p ∈ fluxes, p.2.timestamp = t₀) →
    pairGo bgs fluxes = .ok
      (fluxes.filterMap (fun p =>
        match bgs.find? (fun q => decide (p.1 < q.1)) with
        | none => some (skipWarning p.1)
        | some _ => none),
       fluxes.filterMap (fun p =>
        (bgs.find? (fun q => decide (p.1 < q.1))).map
          (fun q => subtract_body p.2 q.2))) := by
  intro fluxes
  induction fluxes with
  | nil => intro _; rfl
  | cons p rest ih =>
    intro hfl
    have hf : p.2.timestamp = t₀ := hfl p (List.mem_cons_self _ _)
    have hrest : ∀ q ∈ rest, q.2.timestamp = t₀ :=
      fun q hq => hfl q (List.mem_cons_of_mem _ hq)
    unfold pairGo
    cases hfind : bgs.find? (fun q => decide (p.1 < q.1)) with
    | some q =>
      simp only []
      have hq : q ∈ bgs := List.mem_of_find?_eq_some hfind
      have hbq : q.2.timestamp = t₀ := hbg q hq
      have hsub : p.2.subtract_background q.2 = .ok (subtract_body p.2 q.2) :=
        subtract_background_ok p.2 q.2 (by rw [hf, hbq])
      rw [hsub, except_bind_ok, ih hrest, except_bind_ok]
      simp [List.filterMap_cons, hfind]
    | none =>
      simp only []
      rw [ih hrest, except_bind_ok]
      simp [List.filterMap_cons, hfind]

/-- What finding the nearest following background over an enumeration
means: the found index is past `i`, holds a background reading of the
batch, and every strictly earlier index past `i` holds a non-background
reading. -/
theorem findBkg_spec (i : ℕ) :
    ∀ (l : List Reading) (n j : ℕ) (rj : Reading),
    (List.enumFrom n l).find? (fun p => decide (i < p.1) && isBkgR p.2) =
      some (j, rj) →
    i < j ∧ isBkgR rj = true ∧ n ≤ j ∧ l[j - n]? = some rj ∧
    ∀ k rk, i < k → k < j → n ≤ k → l[k - n]? = some rk →
      isBkgR rk = false := by
  intro l
  induction l with
  | nil => intro n j rj h; simp [List.enumFrom, List.find?] at h
  | cons r rest ih =>
    intro n j rj h
    simp only [List.enumFrom, List.find?] at h
    cases hpred : (decide (i < n) && isBkgR r) with
    | true =>
      rw [hpred] at h
      simp only [] at h
      have h2 := Option.some.inj h
      have hn : n = j := congrArg Prod.fst h2
      have hr : r = rj := congrArg Prod.snd h2
      rw [Bool.and_eq_true] at hpred
      subst hn
      subst hr
      refine ⟨of_decide_eq_true hpred.1, hpred.2, Nat.le_refl n, ?_, ?_⟩
      · have h0 : n - n = 0 := by omega
        rw [h0]
        simp
      · intro k rk hik hkj hnk hget
        exact absurd hkj (by omega)
    | false =>
      rw [hpred] at h
      simp only [] at h
      obtain ⟨h1, h2, h3, h4, h5⟩ := ih (n + 1) j rj h
      refine ⟨h1, h2, by omega, ?_, ?_⟩
      · have hj : j - n = (j - (n + 1)) + 1 := by omega
        rw [hj]
        simpa using h4
      · intro k rk hik hkj hnk hget
        by_cases hk : k = n
        · have h0 : k - n = 0 := by omega
          rw [h0] at hget
          have hrk : r = rk := by
            have hg := hget
            simp at hg
            exact hg
          subst hrk
          cases hb : isBkgR r with
          | false => rfl
          | true =>
            exfalso
            rw [hb, Bool.and_true] at hpred
            exact of_decide_eq_false hpred (by omega)
        · have hk1 : k - n = (k - (n + 1)) + 1 := by omega
          rw [hk1] at hget
          exact h5 k rk hik hkj (by omega) (by simpa using hget)

/-- C3: on a single-file batch (uniform timestamps, flux and background
readings only), `subtract_background_simple` returns exactly the
specification's outcome: one corrected reading per flux entry paired
with its nearest strictly-later background (backgrounds are not
consumed, so several flux readings may share one), and one recoverable
warning per flux entry with no later background, both in file order.
The second conjunct pins down "nearest following": the selected index is
the least background index strictly past the flux index. -/
theorem c3_pairs_first_following_background (readings : List Reading)
    (t₀ : PyDateTime)
    (hts : ∀ r ∈ readings, readingTs r = t₀)
    (hkinds : ∀ r ∈ readings, isFluxR r = true ∨ isBkgR r = true) :
    subtract_background_simple readings =
      .ok (specWarns readings, specCorrs readings) ∧
    (∀ i j rj, nextBgPair readings i = some (j, rj) →
      i < j ∧ isBkgR rj = true ∧ readings[j]? = some rj ∧
      ∀ k rk, i < k → k < j → readings[k]? = some rk →
        isBkgR rk = false) := by
  constructor
  · have htag : ∀ p ∈ readings.enum, isFluxR p.2 = true ∨ isBkgR p.2 = true :=
      fun p hp => hkinds p.2 (snd_mem_of_mem_enumFrom readings 0 p hp)
    have hbg : ∀ p ∈ readings.enum.filterMap bkgProj, p.2.timestamp = t₀ := by
      intro p hp
      obtain ⟨a, ha, hpa⟩ := List.mem_filterMap.mp hp
      have ha2 := bkgProj_some a p hpa
      have hmem := snd_mem_of_mem_enumFrom readings 0 a ha
      have hts' := hts a.2 hmem
      rw [ha2] at hts'
      simpa [readingTs] using hts'
    have hfl : ∀ p ∈ readings.enum.filterMap fluxProj, p.2.timestamp = t₀ := by
      intro p hp
      obtain ⟨a, ha, hpa⟩ := List.mem_filterMap.mp hp
      have ha2 := fluxProj_some a p hpa
      have hmem := snd_mem_of_mem_enumFrom readings 0 a ha
      have hts' := hts a.2 hmem
      rw [ha2] at hts'
      simpa [readingTs] using hts'
    unfold subtract_background_simple
    rw [partitionRs_eq readings.enum htag, except_bind_ok]
    show pairGo (readings.enum.filterMap bkgProj)
      (readings.enum.filterMap fluxProj) = _
    rw [pairGo_eq t₀ _ hbg _ hfl]
    have hW : (readings.enum.filterMap fluxProj).filterMap (fun p =>
        match (readings.enum.filterMap bkgProj).find?
          (fun q => decide (p.1 < q.1)) with
        | none => some (skipWarning p.1)
        | some _ => none) = specWarns readings := by
      rw [filterMap_fuse]
      unfold specWarns
      apply List.filterMap_congr
      intro p _
      cases hp2 : p.2 with
      | flux f =>
        have hproj : fluxProj p = some (p.1, f) := by unfold fluxProj; rw [hp2]
        rw [hproj]
        simp only [Option.some_bind]
        rw [find_bkg_eq p.1 readings.enum]
        cases hfind : readings.enum.find?
            (fun q => decide (p.1 < q.1) && isBkgR q.2) with
        | none => simp [hp2, nextBgPair, hfind]
        | some q =>
          have hq := List.find?_some hfind
          simp only [Bool.and_eq_true] at hq
          have hbq : isBkgR q.2 = true := hq.2
          cases hq2 : q.2 with
          | bkgrnd b =>
            have hproj2 : bkgProj q = some (q.1, b) := by
              unfold bkgProj; rw [hq2]
            simp [hp2, nextBgPair, hfind, hproj2]
          | flux f2 => rw [hq2] at hbq; simp [isBkgR] at hbq
          | corr c2 => rw [hq2] at hbq; simp [isBkgR] at hbq
      | bkgrnd b =>
        have hproj : fluxProj p = none := by unfold fluxProj; rw [hp2]
        simp [hproj, hp2]
      | corr c =>
        have hproj : fluxProj p = none := by unfold fluxProj; rw [hp2]
        simp [hproj, hp2]
    have hC : (readings.enum.filterMap fluxProj).filterMap (fun p =>
        ((readings.enum.filterMap bkgProj).find?
          (fun q => decide (p.1 < q.1))).map
          (fun q => subtract_body p.2 q.2)) = specCorrs readings := by
      rw [filterMap_fuse]
      unfold specCorrs
      apply List.filterMap_congr
      intro p _
      cases hp2 : p.2 with
      | flux f =>
        have hproj : fluxProj p = some (p.1, f) := by unfold fluxProj; rw [hp2]
        rw [hproj]
        simp only [Option.some_bind]
        rw [find_bkg_eq p.1 readings.enum]
        cases hfind : readings.enum.find?
            (fun q => decide (p.1 < q.1) && isBkgR q.2) with
        | none => simp [hp2, nextBgPair, hfind]
        | some q =>
          have hq := List.find?_some hfind
          simp only [Bool.and_eq_true] at hq
          have hbq : isBkgR q.2 = true := hq.2
          cases hq2 : q.2 with
          | bkgrnd b =>
            have hproj2 : bkgProj q = some (q.1, b) := by
              unfold bkgProj; rw [hq2]
            simp [hp2, nextBgPair, hfind, hproj2, hq2]
          | flux f2 => rw [hq2] at hbq; simp [isBkgR] at hbq
          | corr c2 => rw [hq2] at hbq; simp [isBkgR] at hbq
      | bkgrnd b =>
        have hproj : fluxProj p = none := by unfold fluxProj; rw [hp2]
        simp [hproj, hp2]
      | corr c =>
        have hproj : fluxProj p = none := by unfold fluxProj; rw [hp2]
        simp [hproj, hp2]
    rw [hW, hC]
  · intro i j rj h
    obtain ⟨h1, h2, _, h4, h5⟩ := findBkg_spec i readings 0 j rj h
    refine ⟨h1, h2, by simpa using h4, fun k rk hik hkj hget =>
      h5 k rk hik hkj (Nat.zero_le k) (by simpa using hget)⟩

/-- Witness for C3 at the claim's concrete batch: backgrounds at file
indices 1 and 5, the flux at index 2 pairs with the background at index
5 (its corrected reading's gap is 6 − 3 = 3), backgrounds are shared by
the fluxes at 3 and 4, and no flux is skipped. -/
theorem c3_pairs_first_following_background_witness :
    subtract_background_simple c3Readings =
      .ok (specWarns c3Readings, specCorrs c3Readings) ∧
    specCorrs c3Readings =
      [subtract_body (c3Flux 1) (c3Bkg 2), subtract_body (c3Flux 3) (c3Bkg 6),
       subtract_body (c3Flux 4) (c3Bkg 6),
       subtract_body (c3Flux 5) (c3Bkg 6)] ∧
    specWarns c3Readings = [] ∧
    nextBgPair c3Readings 2 = some (5, .bkgrnd (c3Bkg 6)) ∧
    (subtract_body (c3Flux 3) (c3Bkg 6)).num_meas_between =
      some (.fin 3) := by
  refine ⟨(c3_pairs_first_following_background c3Readings ts2021
      (by with_unfolding_all decide) (by with_unfolding_all decide)).1,
    by with_unfolding_all decide, by with_unfolding_all decide,
    by with_unfolding_all decide, by with_unfolding_all decide⟩

end FluxReader
